import Mathlib

set_option maxRecDepth 100000

/-!
Verification of the `duh` bare-metal provisioning server (justinpopa/duh)
against its natural-language specification.

Go values are shallowly embedded: Go strings and byte slices become
`List Nat` of byte values, machine integers become `Nat` with explicit
wrap-around where the code wraps, fallible Go functions become
`Except`/`Option`, and the SQLite store becomes an explicit list of rows
threaded through the handlers.  Cryptographic primitives used by the code
(SHA-256, HMAC-SHA256, base64url) are embedded as executable functions so
that concrete digests and tokens can be evaluated inside proofs.
-/

namespace Duh

/-- Go strings are immutable byte slices; we model them as lists of byte
values (each < 256 for well-formed data). -/
abbrev Str := List Nat

/-- Byte values of an ASCII Lean string literal (used to transcribe the Go
string literals appearing in the source). -/
def bytes (s : String) : Str := s.data.map Char.toNat

/-! ### SHA-256 (FIPS 180-4), as used by `crypto/sha256`

Executable implementation over byte lists; words are `Nat` reduced mod
`2^32`. -/

/-- Truncate to a 32-bit word. -/
def w32 (x : Nat) : Nat := x % 4294967296

/-- Right-rotate of a 32-bit word. -/
def rotr (n x : Nat) : Nat := x / 2 ^ n + x % 2 ^ n * 2 ^ (32 - n)

def shaCh (x y z : Nat) : Nat := (x &&& y) ^^^ ((x ^^^ 4294967295) &&& z)

def shaMaj (x y z : Nat) : Nat := (x &&& y) ^^^ (x &&& z) ^^^ (y &&& z)

def bigSigma0 (x : Nat) : Nat := rotr 2 x ^^^ rotr 13 x ^^^ rotr 22 x

def bigSigma1 (x : Nat) : Nat := rotr 6 x ^^^ rotr 11 x ^^^ rotr 25 x

def smallSigma0 (x : Nat) : Nat := rotr 7 x ^^^ rotr 18 x ^^^ x / 8

def smallSigma1 (x : Nat) : Nat := rotr 17 x ^^^ rotr 19 x ^^^ x / 1024

/-- The 64 SHA-256 round constants. -/
def shaK : List Nat :=
  [1116352408, 1899447441, 3049323471, 3921009573, 961987163, 1508970993,
   2453635748, 2870763221, 3624381080, 310598401, 607225278, 1426881987,
   1925078388, 2162078206, 2614888103, 3248222580, 3835390401, 4022224774,
   264347078, 604807628, 770255983, 1249150122, 1555081692, 1996064986,
   2554220882, 2821834349, 2952996808, 3210313671, 3336571891, 3584528711,
   113926993, 338241895, 666307205, 773529912, 1294757372, 1396182291,
   1695183700, 1986661051, 2177026350, 2456956037, 2730485921, 2820302411,
   3259730800, 3345764771, 3516065817, 3600352804, 4094571909, 275423344,
   430227734, 506948616, 659060556, 883997877, 958139571, 1322822218,
   1537002063, 1747873779, 1955562222, 2024104815, 2227730452, 2361852424,
   2428436474, 2756734187, 3204031479, 3329325298]

/-- Initial SHA-256 state. -/
def shaH0 : List Nat :=
  [1779033703, 3144134277, 1013904242, 2773480762,
   1359893119, 2600822924, 528734635, 1541459225]

/-- Big-endian 64-bit length encoding (8 bytes). -/
def be64 (n : Nat) : Str :=
  [n / 2 ^ 56 % 256, n / 2 ^ 48 % 256, n / 2 ^ 40 % 256, n / 2 ^ 32 % 256,
   n / 2 ^ 24 % 256, n / 2 ^ 16 % 256, n / 2 ^ 8 % 256, n % 256]

/-- SHA-256 padding: append 0x80, zero bytes to 56 mod 64, then the bit
length as 8 big-endian bytes. -/
def padMsg (m : Str) : Str :=
  m ++ 128 :: List.replicate ((120 - (m.length + 1) % 64) % 64) 0 ++ be64 (8 * m.length)

/-- Big-endian 32-bit words from bytes. -/
def toWords : Str → List Nat
  | a :: b :: c :: d :: rest => (((a * 256 + b) * 256 + c) * 256 + d) :: toWords rest
  | _ => []

/-- Extend the 16-word message block to 64 words (`n` is remaining fuel). -/
def extendW : Nat → List Nat → List Nat
  | 0, ws => ws
  | Nat.succ n, ws =>
    let i := ws.length
    extendW n (ws ++ [w32 (smallSigma1 (ws.getD (i - 2) 0) + ws.getD (i - 7) 0 +
                           smallSigma0 (ws.getD (i - 15) 0) + ws.getD (i - 16) 0)])

/-- One SHA-256 round: state is the 8-word working list `[a,…,h]`. -/
def shaRound (st : List Nat) (kw : Nat × Nat) : List Nat :=
  match st with
  | [a, b, c, d, e, f, g, h] =>
    let t1 := w32 (h + bigSigma1 e + shaCh e f g + kw.1 + kw.2)
    let t2 := w32 (bigSigma0 a + shaMaj a b c)
    [w32 (t1 + t2), a, b, c, w32 (d + t1), e, f, g]
  | st => st

/-- Compress one 64-byte block into the state. -/
def processBlock (st : List Nat) (block : Str) : List Nat :=
  let ws := extendW 48 (toWords block)
  let fin := List.foldl shaRound st (shaK.zip ws)
  List.zipWith (fun x y => w32 (x + y)) st fin

/-- Split into 64-byte chunks (fuel-driven; fuel `n ≥` number of chunks). -/
def chunksAux : Nat → Str → List Str
  | 0, _ => []
  | _, [] => []
  | Nat.succ n, bs => bs.take 64 :: chunksAux n (bs.drop 64)

def chunks64 (bs : Str) : List Str := chunksAux bs.length bs

/-- The 4 big-endian bytes of a 32-bit word. -/
def wordBytes (w : Nat) : Str := [w / 2 ^ 24 % 256, w / 2 ^ 16 % 256, w / 2 ^ 8 % 256, w % 256]

/-- SHA-256 digest (32 bytes) of a byte string. -/
def sha256 (m : Str) : Str :=
  ((List.foldl processBlock shaH0 (chunks64 (padMsg m))).map wordBytes).flatten

/-- Lower-case hex digit. -/
def hexDigit (n : Nat) : Nat := if n < 10 then 48 + n else 87 + n

/-- Lower-case hex encoding (`encoding/hex.EncodeToString`). -/
def hexEncode (bs : Str) : Str :=
  (bs.map (fun b => [hexDigit (b / 16), hexDigit (b % 16)])).flatten

/-- HMAC-SHA256 (`crypto/hmac` with `sha256.New`). -/
def hmacSha256 (key msg : Str) : Str :=
  let k0 := if key.length > 64 then sha256 key else key
  let kp := k0 ++ List.replicate (64 - k0.length) 0
  sha256 (kp.map (Nat.xor 92) ++ sha256 (kp.map (Nat.xor 54) ++ msg))

/-! ### Catalog entries and `Entry.Hash` (`internal/catalog/catalog.go`) -/

namespace catalog

/-- `catalog.File`: one downloadable file of a catalog entry. -/
structure File where
  name : Str
  url : Str
  sha256 : Str
  deriving DecidableEq, Repr

/-- `catalog.VarDef`: a variable definition carried by a catalog entry.
(`Entry.Hash` reads only `key` and `default`.) -/
structure VarDef where
  key : Str
  label : Str
  type : Str
  default : Str
  description : Str
  required : Bool
  options : List Str
  deriving DecidableEq, Repr

/-- `catalog.Entry`: a remote-manifest image entry. -/
structure Entry where
  id : Str
  icon : Str
  iconColor : Str
  name : Str
  description : Str
  version : Str
  arch : Str
  bootType : Str
  cmdline : Str
  ipxeScript : Str
  files : List File
  osFamily : Str
  kernelParams : Str
  configTemplate : Str
  vars : List VarDef
  deriving DecidableEq, Repr

/-- Go string `<` (lexicographic byte order), used by the file sort in
`Entry.Hash`. -/
def strLt : Str → Str → Bool
  | _, [] => false
  | [], _ :: _ => true
  | a :: as, b :: bs => if a < b then true else if b < a then false else strLt as bs

/-- Insert a file into a name-sorted list, keeping it sorted. -/
def insertByName (f : File) : List File → List File
  | [] => [f]
  | g :: gs => if strLt f.name g.name then f :: g :: gs else g :: insertByName f gs

/-- The `sort.Slice(sorted, …Name < …Name)` step of `Entry.Hash`: sort files
by name.  (Modeled with an insertion sort; it agrees with Go's sort whenever
file names are distinct — Go's unstable sort may order files with *equal*
names differently, which no claim depends on.) -/
def sortFiles (fs : List File) : List File := fs.foldr insertByName []

/-- The two hash writes `h.Write(f.Name); h.Write{0}; h.Write(f.URL);
h.Write{0}` for one file. -/
def serFile (f : File) : Str := f.name ++ 0 :: f.url ++ [0]

/-- The two hash writes for one var definition (`Key` then `Default`). -/
def serVar (v : VarDef) : Str := v.key ++ 0 :: v.default ++ [0]

/-- The byte string fed to SHA-256 for the base fields of `Entry.Hash`
(everything before the extended-fields conditional): each field followed by
a single zero byte, then the name-sorted files. -/
def hashInputBase (e : Entry) : Str :=
  e.name ++ 0 :: e.description ++ 0 :: e.version ++ 0 :: e.arch ++ 0 ::
  e.bootType ++ 0 :: e.cmdline ++ 0 :: e.ipxeScript ++ 0 ::
  ((sortFiles e.files).map serFile).flatten

/-- The extended-fields block of `Entry.Hash`, written only when any of
`os_family`, `kernel_params`, `config_template`, `vars` is non-empty. -/
def extPart (e : Entry) : Str :=
  if e.osFamily ≠ [] ∨ e.kernelParams ≠ [] ∨ e.configTemplate ≠ [] ∨ e.vars ≠ [] then
    e.osFamily ++ 0 :: e.kernelParams ++ 0 :: e.configTemplate ++ 0 ::
      (e.vars.map serVar).flatten
  else []

/-- The full byte string `Entry.Hash` feeds to SHA-256. -/
def hashInput (e : Entry) : Str := hashInputBase e ++ extPart e

/-- `Entry.Hash`: hex-encoded SHA-256 of the serialized content fields. -/
def Entry.Hash (e : Entry) : Str := hexEncode (sha256 (hashInput e))

end catalog

/-- A pair serialized the way `Entry.Hash` serializes file (name, url) and
var (key, default) pairs: each component followed by a zero byte. -/
def serPair (p : Str × Str) : Str := p.1 ++ 0 :: p.2 ++ [0]

/-- The part of a file that `Entry.Hash` reads: name and URL. -/
def fileKey (f : catalog.File) : Str × Str := (f.name, f.url)

/-- The part of a var definition that `Entry.Hash` reads: key and default. -/
def varKey (v : catalog.VarDef) : Str × Str := (v.key, v.default)

/-- No component of any pair contains a zero byte. -/
def nulFreePairs (l : List (Str × Str)) : Prop := ∀ p ∈ l, 0 ∉ p.1 ∧ 0 ∉ p.2

/-- Everything `Entry.Hash` reads from an entry: the hashed fields.  Fields
outside this tuple (id, icon, icon_color, file sha256, var labels …) do not
reach the hash. -/
def hashedFields (e : catalog.Entry) :
    Str × Str × Str × Str × Str × Str × Str ×
      List (Str × Str) × Str × Str × Str × List (Str × Str) :=
  (e.name, e.description, e.version, e.arch, e.bootType, e.cmdline, e.ipxeScript,
   (catalog.sortFiles e.files).map fileKey,
   e.osFamily, e.kernelParams, e.configTemplate, e.vars.map varKey)

/-- A catalog entry whose name and description contain zero bytes, chosen so
its hash input coincides with `entryNulB`'s. -/
def entryNulA : catalog.Entry :=
  { id := [], icon := [], iconColor := [], name := [97], description := [98, 0, 99],
    version := [], arch := [], bootType := [], cmdline := [], ipxeScript := [],
    files := [], osFamily := [], kernelParams := [], configTemplate := [], vars := [] }

/-- Same as `entryNulA` except the name/description boundary is shifted
across the zero-byte separator. -/
def entryNulB : catalog.Entry :=
  { entryNulA with name := [97, 0, 98], description := [99] }

/-! ### Decimal and base64url encodings (`fmt %d`, `strconv.ParseInt`,
`encoding/base64` RawURLEncoding) -/

/-- Decimal digits of a non-negative integer, as `fmt.Sprintf("%d", n)`
prints them. -/
def decBytes (n : Nat) : Str :=
  if n = 0 then [48] else (Nat.digits 10 n).reverse.map (· + 48)

/-- `strconv.ParseInt(s, 10, 64)` on the non-negative digit strings the
token code produces (sign prefixes, which `signURL` never emits, are not
modeled): all-digit non-empty strings below `2^63` parse, everything else
errors. -/
def parseIntBytes (s : Str) : Option Nat :=
  if s ≠ [] ∧ s.all (fun c => decide (48 ≤ c ∧ c ≤ 57)) then
    let v := s.foldl (fun a c => a * 10 + (c - 48)) 0
    if v < 2 ^ 63 then some v else none
  else none

/-- The base64url alphabet of `base64.RawURLEncoding`. -/
def b64alphabet : Str :=
  bytes "ABCDEFGHIJKLMNOPQRSTUVWXYZabcdefghijklmnopqrstuvwxyz0123456789-_"

/-- Encode one 6-bit group. -/
def encB64 (s : Nat) : Nat := b64alphabet.getD s 65

def decB64Aux (c : Nat) : Nat → Str → Option Nat
  | _, [] => none
  | i, a :: rest => if a == c then some i else decB64Aux c (i + 1) rest

/-- Decode one base64url character to its 6-bit group. -/
def decB64 (c : Nat) : Option Nat := decB64Aux c 0 b64alphabet

/-- `base64.RawURLEncoding.EncodeToString`: unpadded base64url. -/
def b64encode : Str → Str
  | [] => []
  | [b1] => [encB64 (b1 / 4), encB64 (b1 % 4 * 16)]
  | [b1, b2] => [encB64 (b1 / 4), encB64 (b1 % 4 * 16 + b2 / 16), encB64 (b2 % 16 * 4)]
  | b1 :: b2 :: b3 :: rest =>
    encB64 (b1 / 4) :: encB64 (b1 % 4 * 16 + b2 / 16) :: encB64 (b2 % 16 * 4 + b3 / 64) ::
      encB64 (b3 % 64) :: b64encode rest

/-- `base64.RawURLEncoding.DecodeString`: 4-character quantums from the
front, a 3- or 2-character remainder decoding 2 or 1 bytes, a 1-character
remainder and unknown characters failing (Go's default permissive mode
ignores non-zero trailing bits, as does this). -/
def b64decode : Str → Option Str
  | [] => some []
  | [_] => none
  | [c1, c2] =>
    match decB64 c1, decB64 c2 with
    | some s1, some s2 => some [s1 * 4 + s2 / 16]
    | _, _ => none
  | [c1, c2, c3] =>
    match decB64 c1, decB64 c2, decB64 c3 with
    | some s1, some s2, some s3 => some [s1 * 4 + s2 / 16, s2 % 16 * 16 + s3 / 4]
    | _, _, _ => none
  | c1 :: c2 :: c3 :: c4 :: rest =>
    match decB64 c1, decB64 c2, decB64 c3, decB64 c4, b64decode rest with
    | some s1, some s2, some s3, some s4, some bs =>
      some ((s1 * 4 + s2 / 16) :: (s2 % 16 * 16 + s3 / 4) :: (s3 % 4 * 64 + s4) :: bs)
    | _, _, _, _, _ => none

/-! ### URL tokens (`internal/httpserver/token.go`) -/

/-- The path part `signURL` signs: everything before the first `?`. -/
def pathOf (rawURL : Str) : Str := rawURL.takeWhile (fun c => !(c == 63))

/-- The query part after the first `?` (empty when there is none). -/
def queryOf (rawURL : Str) : Str := ((rawURL.dropWhile (fun c => !(c == 63))).drop 1)

/-- The `tok=` value `signURL` builds for a path: the expiry is one hour
from now; payload `"<expiry>|<path>"` is HMAC-SHA256-signed, and the token
is `base64url("<expiry>." ++ base64url(signature))`. -/
def signToken (key : Str) (now : Nat) (path : Str) : Str :=
  let expiry := now + 3600
  let payload := decBytes expiry ++ 124 :: path
  let sig := hmacSha256 key payload
  b64encode (decBytes expiry ++ 46 :: b64encode sig)

/-- `signURL`: append the signed token as a `tok=` query parameter; with no
signing key, return the URL unchanged. -/
def signURL (key : Str) (now : Nat) (rawURL : Str) : Str :=
  if key == [] then rawURL
  else
    let path := pathOf rawURL
    let query := queryOf rawURL
    let token := signToken key now path
    if query ≠ [] then path ++ 63 :: query ++ 38 :: bytes "tok=" ++ token
    else rawURL ++ 63 :: bytes "tok=" ++ token

/-- `validateToken` on a request with path `reqPath` and `tok=` value
`tok`: no key accepts everything; otherwise decode the outer base64, split
at the first `.` (`strings.SplitN(…, ".", 2)`), parse the expiry, reject
stale tokens, decode the signature, and constant-time-compare it against
HMAC-SHA256 of the reconstructed payload. -/
def validateToken (key : Str) (now : Nat) (reqPath : Str) (tok : Str) : Bool :=
  if key == [] then true
  else if tok == [] then false
  else
    match b64decode tok with
    | none => false
    | some decoded =>
      if !(decoded.any (fun c => c == 46)) then false
      else
        let p0 := decoded.takeWhile (fun c => !(c == 46))
        let p1 := (decoded.dropWhile (fun c => !(c == 46))).drop 1
        match parseIntBytes p0 with
        | none => false
        | some expiry =>
          if now > expiry then false
          else
            match b64decode p1 with
            | none => false
            | some sigBytes =>
              sigBytes == hmacSha256 key (decBytes expiry ++ 124 :: reqPath)

/-! ### The systems store (`internal/db/systems.go`) -/

namespace db

/-- One row of the `systems` table, with the columns the modeled code
reads (`created_at`/`updated_at` bookkeeping is not modeled).  SQLite
`datetime('now')` timestamps are abstract ticks supplied by the caller. -/
structure System where
  id : Nat
  mac : Str
  hostname : Str
  imageID : Option Nat
  profileID : Option Nat
  vars : Str
  ipAddr : Str
  lastSeenAt : Nat
  state : Str
  stateChangedAt : Nat
  deriving DecidableEq, Repr

/-- ASCII whitespace, for `strings.TrimSpace` (MAC strings are ASCII; the
full Unicode space classes are not modeled). -/
def isSpaceByte (c : Nat) : Bool :=
  c == 32 || c == 9 || c == 10 || c == 11 || c == 12 || c == 13

def trimSpace (s : Str) : Str :=
  ((s.dropWhile isSpaceByte).reverse.dropWhile isSpaceByte).reverse

/-- ASCII `strings.ToLower`. -/
def toLowerByte (c : Nat) : Nat := if 65 ≤ c ∧ c ≤ 90 then c + 32 else c

def isHexLowerByte (c : Nat) : Bool :=
  decide ((48 ≤ c ∧ c ≤ 57) ∨ (97 ≤ c ∧ c ≤ 102))

/-- `normalizeMAC`: trim and lowercase, strip `:`/`-`/`.` separators
(`macSepRe`), require exactly 12 lowercase hex digits, and reformat as six
colon-separated pairs. -/
def normalizeMAC (mac : Str) : Except Str Str :=
  let m := (trimSpace mac).map toLowerByte
  let hex := m.filter (fun c => !(c == 58 || c == 45 || c == 46))
  if hex.length = 12 ∧ hex.all isHexLowerByte then
    .ok (hex.take 2 ++ 58 :: (hex.drop 2).take 2 ++ 58 :: (hex.drop 4).take 2 ++ 58 ::
         (hex.drop 6).take 2 ++ 58 :: (hex.drop 8).take 2 ++ 58 :: hex.drop 10)
  else .error (bytes "invalid MAC address: " ++ m)

/-- `GetSystemByMAC`. -/
def getSystemByMAC (dbase : List System) (mac : Str) : Except Str (Option System) :=
  match normalizeMAC mac with
  | .error e => .error e
  | .ok m => .ok (dbase.find? (fun s => s.mac == m))

/-- `GetSystemByID`. -/
def getSystemByID (dbase : List System) (id : Nat) : Option System :=
  dbase.find? (fun s => s.id == id)

/-- `UpdateSystemState`: unconditional state write by id. -/
def updateSystemState (dbase : List System) (id : Nat) (state : Str) (now : Nat) :
    List System :=
  dbase.map (fun s => if s.id == id then { s with state := state, stateChangedAt := now }
    else s)

/-- `TransitionSystemStateByMAC`: the conditional update `… WHERE mac = ?
AND state = ?`; zero affected rows is reconciled by a follow-up read —
already in the target state succeeds (idempotent), otherwise the error
names the expected and actual states. -/
def transitionSystemStateByMAC (dbase : List System) (mac expected new : Str) (now : Nat) :
    Except Str (List System) :=
  match normalizeMAC mac with
  | .error e => .error e
  | .ok m =>
    let hit := fun (s : System) => s.mac == m && s.state == expected
    if (dbase.filter hit).length = 0 then
      match dbase.find? (fun s => s.mac == m) with
      | none => .error (bytes "system not found: " ++ m)
      | some s =>
        if s.state == new then .ok dbase
        else .error (bytes "state transition failed: expected " ++ expected ++
          bytes ", got " ++ s.state)
    else
      .ok (dbase.map (fun s => if hit s then { s with state := new, stateChangedAt := now }
        else s))

/-- `TouchSystem` on an already-normalized MAC (the Go function
re-normalizes its argument, a no-op for the normalized MACs its caller
passes): update observed IP and last-seen. -/
def touchSystem (dbase : List System) (m ip : Str) (now : Nat) : List System :=
  dbase.map (fun s => if s.mac == m then { s with ipAddr := ip, lastSeenAt := now } else s)

/-- The row `AutoRegister`'s `INSERT OR IGNORE INTO systems (mac, ip_addr,
last_seen_at)` creates; the schema defaults (migration 12) give state
`'discovered'`, empty hostname, NULL image/profile and vars `'{}'`. -/
def newRow (id : Nat) (m ip : Str) (now : Nat) : System :=
  { id := id, mac := m, hostname := [], imageID := none, profileID := none,
    vars := bytes "\x7b\x7d", ipAddr := ip, lastSeenAt := now,
    state := bytes "discovered", stateChangedAt := 0 }

/-- `AutoRegister`: insert-or-ignore keyed on the unique MAC, touch when
the row already exists, read the row back, and report whether the insert
affected a row. -/
def autoRegister (dbase : List System) (nextID : Nat) (mac ip : Str) (now : Nat) :
    Except Str (List System × Nat × Option System × Bool) :=
  match normalizeMAC mac with
  | .error e => .error e
  | .ok m =>
    if (dbase.find? (fun s => s.mac == m)).isSome then
      let db' := touchSystem dbase m ip now
      .ok (db', nextID, db'.find? (fun s => s.mac == m), false)
    else
      let db' := dbase ++ [newRow nextID m ip now]
      .ok (db', nextID + 1, db'.find? (fun s => s.mac == m), true)

/-- `db.Image`: the columns the boot path reads. -/
structure Image where
  id : Nat
  name : Str
  bootType : Str
  cmdline : Str
  ipxeScript : Str
  deriving DecidableEq, Repr

def getImage (images : List Image) (id : Nat) : Option Image :=
  images.find? (fun i => i.id == id)

/-- `db.Profile`: the columns the boot path reads. -/
structure Profile where
  id : Nat
  kernelParams : Str
  defaultVars : Str
  overlayFile : Str
  deriving DecidableEq, Repr

def getProfile (profiles : List Profile) (id : Nat) : Option Profile :=
  profiles.find? (fun p => p.id == id)

end db

/-! ### iPXE scripts (`internal/ipxe/scripts.go`) -/

namespace ipxe

/-- `ExitScript()`: the no-op script that falls through to local boot. -/
def ExitScript : Str := bytes "#!ipxe\nexit\n"

structure ExtraFileURLs where
  bcd : Str
  bootSDI : Str
  bootWIM : Str
  bootCfg : Str
  bootISO : Str
  deriving DecidableEq, Repr

structure ScriptParams where
  kernelURL : Str
  initrdURL : Str
  cmdline : Str
  mac : Str
  hostname : Str
  overlayURLs : List Str
  extraFileURLs : ExtraFileURLs
  deriving DecidableEq, Repr

/-- The fixed `linux` template, rendered (its only actions are field
substitutions and the overlay range). -/
def linuxScript (p : ScriptParams) : Str :=
  bytes "#!ipxe\nkernel " ++ p.kernelURL ++ 32 :: p.cmdline ++ bytes "\ninitrd " ++
    p.initrdURL ++ (p.overlayURLs.map (fun u => bytes "\ninitrd " ++ u)).flatten ++
    bytes "\nboot\n"

/-- The fixed `wimboot` template, rendered. -/
def wimbootScript (p : ScriptParams) : Str :=
  bytes "#!ipxe\nkernel " ++ p.kernelURL ++ bytes "\ninitrd --name BCD " ++
    p.extraFileURLs.bcd ++ bytes "\ninitrd --name boot.sdi " ++ p.extraFileURLs.bootSDI ++
    bytes "\ninitrd --name boot.wim " ++ p.extraFileURLs.bootWIM ++ bytes "\nboot\n"

/-- The fixed `esxi` template, rendered. -/
def esxiScript (p : ScriptParams) : Str :=
  bytes "#!ipxe\nkernel " ++ p.kernelURL ++ bytes " -c " ++ p.extraFileURLs.bootCfg ++
    32 :: p.cmdline ++ bytes "\nboot\n"

/-- The fixed `iso` template, rendered. -/
def isoScript (p : ScriptParams) : Str :=
  bytes "#!ipxe\nkernel " ++ p.kernelURL ++ bytes " iso raw\ninitrd " ++
    p.extraFileURLs.bootISO ++ bytes "\nboot\n"

/-- `RenderBootScript`: select the flavour template; `custom` renders the
operator-supplied script through `text/template`, which is not embedded —
the `render` argument stands for that engine (an empty custom script yields
the exit script). -/
def RenderBootScript (render : Str → ScriptParams → Except Str Str)
    (bootType : Str) (p : ScriptParams) (ipxeScript : Str) : Except Str Str :=
  if bootType == bytes "wimboot" then .ok (wimbootScript p)
  else if bootType == bytes "esxi" then .ok (esxiScript p)
  else if bootType == bytes "iso" then .ok (isoScript p)
  else if bootType == bytes "custom" then
    if ipxeScript == [] then .ok ExitScript else render ipxeScript p
  else .ok (linuxScript p)

def stripShebang (script : Str) : Str :=
  if script.length > 7 ∧ script.take 7 = bytes "#!ipxe\n" then script.drop 7
  else if script.length > 8 ∧ script.take 8 = bytes "#!ipxe\r\n" then script.drop 8
  else script

/-- `WrapWithConfirmation`: the 30-second cancel-default menu around a boot
script, reattaching the shebang. -/
def WrapWithConfirmation (script hostname mac : Str) : Str :=
  let label := if hostname ≠ [] then hostname ++ bytes " (" ++ mac ++ [41] else mac
  bytes "#!ipxe\n\nmenu Confirm Reimage: " ++ label ++
    bytes "\nitem --gap\nitem --gap This system is flagged for reimage.\nitem --gap Proceeding will ERASE ALL DATA on this machine.\nitem --gap\nitem confirm Proceed with reimage\nitem cancel  Cancel and boot normally\nchoose --default cancel --timeout 30000 selected && goto $\x7bselected\x7d || goto cancel\n\n:cancel\necho Cancelled. Booting from local disk...\nexit\n\n:confirm\n" ++
    stripShebang script

end ipxe

/-! ### HTTP handlers (`internal/httpserver`) -/

namespace httpserver

/-- An event as fired by `fireSystemEvent`.  The dispatcher queue is
modeled as the unbounded list of fired events (the capacity-100 drop policy
of `webhook.Dispatcher.Fire` is outside the modeled claims). -/
structure Event where
  type : Str
  dataID : Nat
  dataMac : Str
  dataHostname : Str
  dataIP : Str
  dataState : Str
  deriving DecidableEq, Repr

/-- `fireSystemEvent`: type `system.<state>`, data from the system row. -/
def mkSystemEvent (sys : db.System) (state : Str) : Event :=
  { type := bytes "system." ++ state, dataID := sys.id, dataMac := sys.mac,
    dataHostname := sys.hostname, dataIP := sys.ipAddr, dataState := state }

/-- An HTTP response: a 200 body write, an `http.Error`, or the rendered
system-row template (whose HTML body is not modeled). -/
inductive HTTPResp where
  | ok (contentType : Str) (body : Str)
  | err (status : Nat) (msg : Str)
  | rowHTML (id : Nat)
  deriving DecidableEq, Repr

/-- `handleCallback` (`POST /api/v1/systems/{mac}/callback`): token gate,
`provisioning → ready` transition, `system.ready` event, JSON
`{"status":"ok"}` (with the trailing newline `json.Encoder` writes).
`tokenValid` stands for `validateToken` on the incoming request. -/
def handleCallback (dbase : List db.System) (events : List Event) (tokenValid : Bool)
    (mac : Str) (now : Nat) : List db.System × List Event × HTTPResp :=
  if !tokenValid then (dbase, events, .err 403 (bytes "Forbidden"))
  else if mac == [] then (dbase, events, .err 400 (bytes "MAC address required"))
  else
    match db.transitionSystemStateByMAC dbase mac (bytes "provisioning") (bytes "ready") now with
    | .error _ => (dbase, events, .err 500 (bytes "Internal Server Error"))
    | .ok db' =>
      let events' :=
        match db.getSystemByMAC db' mac with
        | .ok (some sys) => events ++ [mkSystemEvent sys (bytes "ready")]
        | _ => events
      (db', events', .ok (bytes "application/json") (bytes "\x7b\"status\":\"ok\"\x7d\n"))

/-- `N` sequential signed callback requests (the claim's iteration
harness). -/
def callbackIter (mac : Str) : Nat → List db.System → List Event →
    List db.System × List Event × List HTTPResp
  | 0, dbase, evs => (dbase, evs, [])
  | Nat.succ n, dbase, evs =>
    let r := handleCallback dbase evs true mac 0
    let rest := callbackIter mac n r.1 r.2.1
    (rest.1, rest.2.1, r.2.2 :: rest.2.2)

/-- The template context bound for profile rendering
(`internal/profile.TemplateVars`). -/
structure TemplateVars where
  mac : Str
  hostname : Str
  ip : Str
  systemID : Nat
  imageID : Nat
  serverURL : Str
  configURL : Str
  callbackURL : Str
  vars : List (Str × Str)

/-- The boot-path pieces delegated to Go's `encoding/json` and
`text/template` (not embedded): the handler model is parametric in them, so
every theorem about the handler holds for an arbitrary engine. -/
structure TemplateEngine where
  buildVars : Str → Str → Except Str (List (Str × Str))
  renderKernelParams : Str → TemplateVars → Except Str Str
  renderCustom : Str → ipxe.ScriptParams → Except Str Str

/-- Server state read by the boot path: the signing key (empty = auth
disabled), the configured external URL, and the `confirm_reimage`
setting. -/
structure ServerCtx where
  signingKey : Str
  serverURL : Str
  confirmReimage : Bool

/-- The auto-registration fragment of `handleBootScript`: register or
touch, and fire `system.discovered` exactly when the insert created the
row. -/
def autoRegisterStep (dbase : List db.System) (nextID : Nat) (events : List Event)
    (mac ip : Str) (now : Nat) :
    Except Str (List db.System × Nat × List Event × Option db.System × Bool) :=
  match db.autoRegister dbase nextID mac ip now with
  | .error e => .error e
  | .ok (db', nextID', sysOpt, isNew) =>
    let events' :=
      if isNew then
        match sysOpt with
        | some sys => events ++ [mkSystemEvent sys (bytes "discovered")]
        | none => events
      else events
    .ok (db', nextID', events', sysOpt, isNew)

/-- `handleBootScript` (`GET /boot.ipxe?mac=…`): missing or invalid MAC,
unknown/unready machines and failed image lookups all answer the exit
script; a queued machine with image and hostname gets its rendered script,
moves to `provisioning` and fires the event. -/
def handleBootScript (eng : TemplateEngine) (ctx : ServerCtx)
    (dbase : List db.System) (images : List db.Image) (profiles : List db.Profile)
    (events : List Event) (nextID : Nat) (macQ clientIP host : Str) (now : Nat) :
    List db.System × Nat × List Event × HTTPResp :=
  if macQ == [] then (dbase, nextID, events, .ok (bytes "text/plain") ipxe.ExitScript)
  else
    match autoRegisterStep dbase nextID events macQ clientIP now with
    | .error _ => (dbase, nextID, events, .ok (bytes "text/plain") ipxe.ExitScript)
    | .ok (db', nextID', events', sysOpt, _isNew) =>
      match sysOpt with
      | none => (db', nextID', events', .ok (bytes "text/plain") ipxe.ExitScript)
      | some sys =>
        if !(sys.state == bytes "queued") || sys.imageID == none || sys.hostname == [] then
          (db', nextID', events', .ok (bytes "text/plain") ipxe.ExitScript)
        else
          match db.getImage images (sys.imageID.getD 0) with
          | none => (db', nextID', events', .ok (bytes "text/plain") ipxe.ExitScript)
          | some img =>
            let serverURL := if ctx.serverURL == [] then bytes "http://" ++ host
              else ctx.serverURL
            let imageFileURL := fun (filename : Str) =>
              signURL ctx.signingKey now
                (serverURL ++ bytes "/images/" ++ decBytes img.id ++ bytes "/file/" ++ filename)
            let sel : Str × Str × ipxe.ExtraFileURLs :=
              if img.bootType == bytes "wimboot" then
                (imageFileURL (bytes "wimboot"), [],
                 { bcd := imageFileURL (bytes "BCD"), bootSDI := imageFileURL (bytes "boot.sdi"),
                   bootWIM := imageFileURL (bytes "boot.wim"), bootCfg := [], bootISO := [] })
              else if img.bootType == bytes "esxi" then
                (imageFileURL (bytes "mboot.efi"), [],
                 { bcd := [], bootSDI := [], bootWIM := [],
                   bootCfg := imageFileURL (bytes "boot.cfg"), bootISO := [] })
              else if img.bootType == bytes "iso" then
                (imageFileURL (bytes "memdisk"), [],
                 { bcd := [], bootSDI := [], bootWIM := [], bootCfg := [],
                   bootISO := imageFileURL (bytes "boot.iso") })
              else
                (imageFileURL (bytes "vmlinuz"), imageFileURL (bytes "initrd.img"),
                 { bcd := [], bootSDI := [], bootWIM := [], bootCfg := [], bootISO := [] })
            let profOpt : Option db.Profile :=
              match sys.profileID with
              | none => none
              | some pid => db.getProfile profiles pid
            let cmdline :=
              match profOpt with
              | some prof =>
                if prof.kernelParams ≠ [] then
                  match eng.buildVars prof.defaultVars sys.vars with
                  | .error _ => img.cmdline
                  | .ok vars =>
                    let configURL := signURL ctx.signingKey now
                      (serverURL ++ bytes "/config/" ++ decBytes sys.id)
                    let callbackURL := signURL ctx.signingKey now
                      (serverURL ++ bytes "/api/v1/systems/" ++ sys.mac ++ bytes "/callback")
                    let tv : TemplateVars :=
                      { mac := sys.mac, hostname := sys.hostname, ip := sys.ipAddr,
                        systemID := sys.id, imageID := sys.imageID.getD 0,
                        serverURL := serverURL, configURL := configURL,
                        callbackURL := callbackURL, vars := vars }
                    match eng.renderKernelParams prof.kernelParams tv with
                    | .error _ => img.cmdline
                    | .ok rendered =>
                      if rendered ≠ [] then db.trimSpace (img.cmdline ++ 32 :: rendered)
                      else img.cmdline
                else img.cmdline
              | none => img.cmdline
            let overlayURLs : List Str :=
              match profOpt with
              | some prof =>
                if prof.overlayFile ≠ [] then
                  [signURL ctx.signingKey now (serverURL ++ bytes "/profiles/" ++
                    decBytes prof.id ++ bytes "/overlay/" ++ prof.overlayFile)]
                else []
              | none => []
            let params : ipxe.ScriptParams :=
              { kernelURL := sel.1, initrdURL := sel.2.1, cmdline := cmdline,
                mac := sys.mac, hostname := sys.hostname, overlayURLs := overlayURLs,
                extraFileURLs := sel.2.2 }
            match ipxe.RenderBootScript eng.renderCustom img.bootType params img.ipxeScript with
            | .error _ => (db', nextID', events', .err 500 (bytes "Internal Server Error"))
            | .ok script =>
              let script := if ctx.confirmReimage then
                  ipxe.WrapWithConfirmation script sys.hostname sys.mac
                else script
              let db'' := db.updateSystemState db' sys.id (bytes "provisioning") now
              let events'' := events' ++ [mkSystemEvent sys (bytes "provisioning")]
              (db'', nextID', events'', .ok (bytes "text/plain") script)

/-- `handleSystemStateAction`: the operator state actions with their
guards; a guard violation is a 400 with the messages from the source. -/
def handleSystemStateAction (dbase : List db.System) (events : List Event)
    (id : Nat) (action : Str) (now : Nat) :
    List db.System × List Event × HTTPResp :=
  match db.getSystemByID dbase id with
  | none => (dbase, events, .err 404 (bytes "System not found"))
  | some sys =>
    let finish := fun (newState : Str) =>
      (db.updateSystemState dbase id newState now,
       events ++ [mkSystemEvent sys newState], HTTPResp.rowHTML id)
    if action == bytes "queue" then
      if !(sys.state == bytes "discovered") && !(sys.state == bytes "ready") &&
          !(sys.state == bytes "failed") then
        (dbase, events, .err 400 (bytes "Cannot queue from state " ++ sys.state))
      else if sys.imageID == none || sys.hostname == [] then
        (dbase, events, .err 400 (bytes "Image and hostname must be set before queuing"))
      else finish (bytes "queued")
    else if action == bytes "cancel" then
      if !(sys.state == bytes "queued") then
        (dbase, events, .err 400 (bytes "Can only cancel from queued state"))
      else if sys.hostname ≠ [] then finish (bytes "ready")
      else finish (bytes "discovered")
    else if action == bytes "retry" then
      if !(sys.state == bytes "failed") then
        (dbase, events, .err 400 (bytes "Can only retry from failed state"))
      else finish (bytes "queued")
    else if action == bytes "mark_failed" then
      if !(sys.state == bytes "provisioning") then
        (dbase, events, .err 400 (bytes "Can only mark failed from provisioning state"))
      else finish (bytes "failed")
    else if action == bytes "reimage" then
      if !(sys.state == bytes "ready") then
        (dbase, events, .err 400 (bytes "Can only reimage from ready state"))
      else finish (bytes "queued")
    else (dbase, events, .err 400 (bytes "Unknown action"))

/-- Repeated boot-time auto-registration attempts for one MAC (the claim's
iteration harness); each element of `ipsNows` is one boot's observed IP and
time. -/
def autoRegisterIter (mac : Str) : List (Str × Nat) → List db.System → Nat → List Event →
    List db.System × Nat × List Event × List Bool
  | [], dbase, nid, evs => (dbase, nid, evs, [])
  | (ip, now) :: rest, dbase, nid, evs =>
    let step :=
      match autoRegisterStep dbase nid evs mac ip now with
      | .error _ => (dbase, nid, evs, false)
      | .ok (db', nid', evs', _, isNew) => (db', nid', evs', isNew)
    let r := autoRegisterIter mac rest step.1 step.2.1 step.2.2.1
    (r.1, r.2.1, r.2.2.1, step.2.2.2 :: r.2.2.2)

/-- The accumulated effect of repeated touches on one row. -/
def applyTouches (row : db.System) (ipsNows : List (Str × Nat)) : db.System :=
  ipsNows.foldl (fun r p => { r with ipAddr := p.1, lastSeenAt := p.2 }) row

end httpserver

/-- Executable contiguous-substring test (used to state "the message names
the current state"). -/
def subStr (needle hay : Str) : Bool :=
  (List.range (hay.length + 1)).any (fun k => (hay.drop k).take needle.length == needle)

/-- A machine fixture in `provisioning` with a normalized MAC. -/
def sysProv : db.System :=
  { id := 1, mac := bytes "aa:bb:cc:dd:ee:ff", hostname := bytes "node01",
    imageID := some 1, profileID := none, vars := bytes "\x7b\x7d",
    ipAddr := bytes "10.0.0.7", lastSeenAt := 0, state := bytes "provisioning",
    stateChangedAt := 0 }

/-- A machine fixture in `discovered`. -/
def sysDisc : db.System := { sysProv with id := 2, state := bytes "discovered" }

/-! ### Proxy-DHCP responder (`internal/proxydhcp/proxydhcp.go`)

The DHCPv4 packet plumbing comes from the library
`github.com/insomniacslk/dhcp`; its pieces used by the handler are
modeled from that library: `NewReplyFromRequest` starts from a fresh reply
(BOOTP header fields zero) and applies the modifiers in order, and the
modifier `WithServerIP` writes `DHCPv4.ServerIPAddr` — the BOOTP `siaddr`
("next server") header field. -/

namespace proxydhcp

/-- The fields of a parsed DHCPv4 request that the handler reads.
`archTypes` is the decoded option 93 list (`pkt.ClientArch()`). -/
structure Packet where
  messageType : Nat
  classID : Option Str
  userClass : Option Str
  archTypes : List Nat
  deriving DecidableEq, Repr

/-- The reply fields the handler sets: BOOTP header `siaddr`/`yiaddr` and
options 54, 60, 67 (boot file) and 43. -/
structure Reply where
  messageType : Nat
  siaddr : List Nat
  yiaddr : List Nat
  opt54 : Option (List Nat)
  opt60 : Option Str
  bootFileName : Option Str
  opt43 : Option Str
  deriving DecidableEq, Repr

/-- Option 60 begins with `"PXEClient"`. -/
def isPXEClient (pkt : Packet) : Bool :=
  match pkt.classID with
  | none => false
  | some s => decide (s.length ≥ 9) && (s.take 9 == bytes "PXEClient")

/-- Option 60 begins with `"HTTPClient"`. -/
def isHTTPBootClient (pkt : Packet) : Bool :=
  match pkt.classID with
  | none => false
  | some s => decide (s.length ≥ 10) && (s.take 10 == bytes "HTTPClient")

/-- Option 77 equals `"iPXE"` or the length-prefixed `"\x04iPXE"`. -/
def isIPXEClient (pkt : Packet) : Bool :=
  match pkt.userClass with
  | none => false
  | some s => s == bytes "iPXE" || s == 4 :: bytes "iPXE"

/-- First arch of option 93, defaulting to `INTEL_X86PC` (0). -/
def clientArch (pkt : Packet) : Nat :=
  match pkt.archTypes with
  | [] => 0
  | a :: _ => a

/-- Dotted-decimal printing of a 4-byte IP (`fmt "%s"` of `net.IP`). -/
def ipString (ip : List Nat) : Str :=
  match ip with
  | [a, b, c, d] => decBytes a ++ 46 :: decBytes b ++ 46 :: decBytes c ++ 46 :: decBytes d
  | _ => []

/-- The PXE vendor options blob (`vendorOpts`): discovery-control 8. -/
def vendorOpts : Str := [6, 1, 8, 255]

/-- The proxy-DHCP `handler`: `none` models a dropped packet.  Arch codes:
`EFI_X86_64 = 9`, `EFI_BC = 7`, `EFI_ARM64 = 11` (IANA). -/
def handler (serverIP : List Nat) (serverURL httpAddr : Str) (pkt : Packet) :
    Option Reply :=
  if pkt.messageType ≠ 1 ∧ pkt.messageType ≠ 3 then none
  else
    let httpBoot := isHTTPBootClient pkt
    if ¬ isPXEClient pkt ∧ ¬ httpBoot then none
    else
      let isIPXE := isIPXEClient pkt
      let arch := clientArch pkt
      let url := if serverURL == [] then bytes "http://" ++ ipString serverIP ++ httpAddr
        else serverURL
      let bootFile :=
        if isIPXE then url ++ bytes "/boot.ipxe?mac=$\x7bnet0/mac\x7d"
        else if httpBoot then
          if arch == 11 then url ++ bytes "/ipxe-arm64.efi" else url ++ bytes "/ipxe.efi"
        else if arch == 9 || arch == 7 then bytes "ipxe.efi"
        else if arch == 11 then bytes "ipxe-arm64.efi"
        else bytes "undionly.kpxe"
      let r0 : Reply := { messageType := 0, siaddr := [0, 0, 0, 0], yiaddr := [0, 0, 0, 0],
                          opt54 := none, opt60 := none, bootFileName := none, opt43 := none }
      let r1 := { r0 with messageType := 2 }
      let r2 := { r1 with siaddr := serverIP }
      let r3 := { r2 with opt54 := some serverIP }
      let r4 := { r3 with bootFileName := some bootFile }
      let r5 := if httpBoot then { r4 with opt60 := some (bytes "HTTPClient") }
        else { r4 with opt60 := some (bytes "PXEClient"), opt43 := some vendorOpts }
      let r6 := if pkt.messageType == 3 then { r5 with messageType := 5 } else r5
      let r7 := if !httpBoot then { r6 with siaddr := serverIP } else r6
      some { r7 with yiaddr := [0, 0, 0, 0] }

/-- A UEFI HTTP-Boot DISCOVER (option 60 `"HTTPClient"`, arch 0x0007). -/
def httpBootDiscover : Packet :=
  { messageType := 1, classID := some (bytes "HTTPClient"), userClass := none,
    archTypes := [7] }

/-- A BIOS PXE DISCOVER (option 60 `"PXEClient"`, no option 93). -/
def pxeBiosDiscover : Packet :=
  { messageType := 1, classID := some (bytes "PXEClient"), userClass := none,
    archTypes := [] }

end proxydhcp

/-! ### SSRF guard (`internal/safenet` / `webhook/dispatcher.go`) -/

namespace safenet

/-- A Go `net.IP`: a byte slice of length 4 or 16. -/
abbrev IP := List Nat

/-- `net.IP.To4`: a 4-byte address, or the tail of a v4-in-v6 mapped
address. -/
def to4 (ip : IP) : Option IP :=
  if ip.length = 4 then some ip
  else if ip.length = 16 ∧ ip.take 10 = List.replicate 10 0 ∧
      ip.getD 10 0 = 255 ∧ ip.getD 11 0 = 255 then some (ip.drop 12)
  else none

def ipv6Loopback : IP := List.replicate 15 0 ++ [1]

/-- `net.IP.IsLoopback`. -/
def isLoopback (ip : IP) : Bool :=
  match to4 ip with
  | some ip4 => ip4.getD 0 0 == 127
  | none => ip == ipv6Loopback

/-- `net.IP.IsLinkLocalUnicast`. -/
def isLinkLocalUnicast (ip : IP) : Bool :=
  match to4 ip with
  | some ip4 => ip4.getD 0 0 == 169 && ip4.getD 1 0 == 254
  | none => ip.length == 16 && ip.getD 0 0 == 254 && (ip.getD 1 0 &&& 192) == 128

/-- `net.IP.IsLinkLocalMulticast`. -/
def isLinkLocalMulticast (ip : IP) : Bool :=
  match to4 ip with
  | some ip4 => ip4.getD 0 0 == 224 && ip4.getD 1 0 == 0 && ip4.getD 2 0 == 0
  | none => ip.length == 16 && ip.getD 0 0 == 255 && (ip.getD 1 0 &&& 15) == 2

/-- `net.IP.Equal` (4- and 16-byte forms compare through the v4-in-v6
mapping). -/
def ipEqual (a b : IP) : Bool :=
  if a.length = b.length then a == b
  else if a.length = 4 ∧ b.length = 16 then
    (b.take 12 == List.replicate 10 0 ++ [255, 255]) && (b.drop 12 == a)
  else if a.length = 16 ∧ b.length = 4 then
    (a.take 12 == List.replicate 10 0 ++ [255, 255]) && (a.drop 12 == b)
  else false

/-- `net.IP.IsUnspecified`: equal to `0.0.0.0` or `::`. -/
def isUnspecified (ip : IP) : Bool :=
  ipEqual ip [0, 0, 0, 0] || ipEqual ip (List.replicate 16 0)

/-- `net.IPNet.Contains` for a network given as address and mask bytes
(`ParseCIDR` of the fixed ranges below yields these), with the `To4`
conversion Go applies to the probed address. -/
def cidrContains (nn mask : IP) (ip0 : IP) : Bool :=
  let ip := match to4 ip0 with
    | some x => x
    | none => ip0
  ip.length == nn.length &&
    (List.zipWith (fun a b => a &&& b) ip mask == List.zipWith (fun a b => a &&& b) nn mask)

/-- `isPrivateIP`: loopback, link-local unicast/multicast, unspecified, or
one of the fixed private ranges. -/
def isPrivateIP (ip : IP) : Bool :=
  isLoopback ip || isLinkLocalUnicast ip || isLinkLocalMulticast ip || isUnspecified ip ||
  cidrContains [10, 0, 0, 0] [255, 0, 0, 0] ip ||
  cidrContains [172, 16, 0, 0] [255, 240, 0, 0] ip ||
  cidrContains [192, 168, 0, 0] [255, 255, 0, 0] ip ||
  cidrContains [169, 254, 0, 0] [255, 255, 0, 0] ip ||
  cidrContains (252 :: List.replicate 15 0) (254 :: List.replicate 15 0) ip ||
  cidrContains ipv6Loopback (List.replicate 16 255) ip

/-- The SSRF guard inside `SafeDialContext`: given the resolver's answers
for the host, either the blocking error — returned before any socket is
opened — or permission to dial.  (The error's IP/host formatting is not
modeled.) -/
def safeDialCheck (ips : List IP) : Except Str Unit :=
  match ips.find? isPrivateIP with
  | some _ => .error (bytes "blocked connection to private IP")
  | none => .ok ()

/-- Modelled from the spec: the claim's own list of private classes —
"loopback, link-local, 10.0.0.0/8, 172.16.0.0/12, 192.168.0.0/16,
169.254.0.0/16, fc00::/7, ::1" — for comparison against the code's
`isPrivateIP`. -/
def claimPrivateIP (ip : IP) : Bool :=
  isLoopback ip || isLinkLocalUnicast ip ||
  cidrContains [10, 0, 0, 0] [255, 0, 0, 0] ip ||
  cidrContains [172, 16, 0, 0] [255, 240, 0, 0] ip ||
  cidrContains [192, 168, 0, 0] [255, 255, 0, 0] ip ||
  cidrContains [169, 254, 0, 0] [255, 255, 0, 0] ip ||
  cidrContains (252 :: List.replicate 15 0) (254 :: List.replicate 15 0) ip ||
  cidrContains ipv6Loopback (List.replicate 16 255) ip

end safenet

/-- A concrete catalog entry (no extended fields), used to evaluate
`Entry.Hash` at specific inputs. -/
def entryA : catalog.Entry :=
  { id := bytes "u24-server", icon := [], iconColor := [],
    name := bytes "Ubuntu Server", description := bytes "LTS",
    version := bytes "24.04", arch := bytes "amd64",
    bootType := bytes "linux", cmdline := bytes "console=ttyS0",
    ipxeScript := [],
    files := [{ name := bytes "vmlinuz", url := bytes "https://mirror/k", sha256 := [] },
              { name := bytes "initrd.img", url := bytes "https://mirror/i", sha256 := [] }],
    osFamily := [], kernelParams := [], configTemplate := [], vars := [] }

end Duh

namespace Duh

/-! ### Theorems -/

-- FIPS 180-4 test vector, checking the embedding of SHA-256.
theorem sha256_fips_vector :
    hexEncode (sha256 (bytes "abc")) =
      bytes "ba7816bf8f01cfea414140de5dae2223b00361a396177a9cb410ff61f20015ad" := by
  decide

theorem append_left_ne {p x y : Str} (h : x ≠ y) : p ++ x ≠ p ++ y := by
  intro hh
  exact h (List.append_cancel_left hh)

theorem append_right_ne {x y s : Str} (h : x ≠ y) : x ++ s ≠ y ++ s := by
  intro hh
  exact h (List.append_cancel_right hh)

theorem cons_ne_cons {a : Nat} {x y : Str} (h : x ≠ y) : a :: x ≠ a :: y := by
  intro hh
  exact h (List.cons.inj hh).2

/-- Splitting at the first zero byte is unambiguous when neither prefix
contains one. -/
theorem nul_split : ∀ {a b x y : Str}, 0 ∉ a → 0 ∉ b →
    a ++ 0 :: x = b ++ 0 :: y → a = b ∧ x = y := by
  intro a
  induction a with
  | nil =>
    intro b x y _ hb h
    cases b with
    | nil => simpa using h
    | cons c cs =>
      simp only [List.nil_append, List.cons_append, List.cons.injEq] at h
      exact absurd (by rw [← h.1]; exact List.mem_cons_self 0 cs) hb
  | cons c cs ih =>
    intro b x y ha hb h
    cases b with
    | nil =>
      simp only [List.cons_append, List.nil_append, List.cons.injEq] at h
      exact absurd (by rw [h.1]; exact List.mem_cons_self 0 cs) ha
    | cons d ds =>
      simp only [List.cons_append, List.cons.injEq] at h
      obtain ⟨rfl, h2⟩ := h
      obtain ⟨h3, h4⟩ := ih (fun hm => ha (List.mem_cons_of_mem _ hm))
        (fun hm => hb (List.mem_cons_of_mem _ hm)) h2
      exact ⟨by rw [h3], h4⟩

/-- The zero-separated pair serialization used by `Entry.Hash` is injective
on pairs whose components are free of zero bytes. -/
theorem serPairs_flatten_inj : ∀ {l1 l2 : List (Str × Str)},
    nulFreePairs l1 → nulFreePairs l2 →
    (l1.map serPair).flatten = (l2.map serPair).flatten → l1 = l2 := by
  intro l1
  induction l1 with
  | nil =>
    intro l2 _ _ h
    cases l2 with
    | nil => rfl
    | cons q qs =>
      exfalso
      simp only [List.map_nil, List.flatten_nil, List.map_cons, List.flatten_cons,
        serPair, List.append_assoc, List.cons_append, List.singleton_append] at h
      exact absurd h.symm (by simp)
  | cons p ps ih =>
    intro l2 h1 h2 h
    cases l2 with
    | nil =>
      exfalso
      simp only [List.map_nil, List.flatten_nil, List.map_cons, List.flatten_cons,
        serPair, List.append_assoc, List.cons_append, List.singleton_append] at h
      exact absurd h (by simp)
    | cons q qs =>
      simp only [List.map_cons, List.flatten_cons, serPair, List.append_assoc,
        List.cons_append, List.singleton_append] at h
      obtain ⟨e1, h'⟩ := nul_split (h1 p (List.mem_cons_self p ps)).1
        (h2 q (List.mem_cons_self q qs)).1 h
      obtain ⟨e2, h''⟩ := nul_split (h1 p (List.mem_cons_self p ps)).2
        (h2 q (List.mem_cons_self q qs)).2 h'
      have hrest := ih (fun r hr => h1 r (List.mem_cons_of_mem _ hr))
        (fun r hr => h2 r (List.mem_cons_of_mem _ hr)) h''
      rw [hrest, Prod.ext e1 e2]

theorem mem_insertByName {a f : catalog.File} {l : List catalog.File} :
    a ∈ catalog.insertByName f l ↔ a = f ∨ a ∈ l := by
  induction l with
  | nil => simp [catalog.insertByName]
  | cons g gs ih =>
    simp only [catalog.insertByName]
    split
    · simp [List.mem_cons]
    · simp only [List.mem_cons, ih]
      tauto

theorem mem_sortFiles {a : catalog.File} {l : List catalog.File} :
    a ∈ catalog.sortFiles l ↔ a ∈ l := by
  induction l with
  | nil => simp [catalog.sortFiles]
  | cons f fs ih =>
    show a ∈ catalog.insertByName f (catalog.sortFiles fs) ↔ _
    rw [mem_insertByName, ih]
    simp [List.mem_cons]

/-- NUL-freedom of file keys transfers through the name sort. -/
theorem nulFree_sortFiles {l : List catalog.File}
    (h : nulFreePairs (l.map fileKey)) :
    nulFreePairs ((catalog.sortFiles l).map fileKey) := by
  intro p hp
  obtain ⟨f, hf, rfl⟩ := List.mem_map.mp hp
  exact h _ (List.mem_map.mpr ⟨f, mem_sortFiles.mp hf, rfl⟩)

/-- C3 (counterexample): `Entry.Hash` *does* hash the description — two
entries that differ only in `description` produce different content hashes,
so the claimed "same content_hash" fails at this concrete pair. -/
theorem entry_hash_differs_on_description :
    ({ entryA with description := bytes "rewritten" } : catalog.Entry).description ≠
        entryA.description ∧
      catalog.Entry.Hash { entryA with description := bytes "rewritten" } ≠
        catalog.Entry.Hash entryA := by
  exact ⟨by decide, by decide⟩

/-- C3 (amended): two catalog entries that differ only in `description`
feed different byte strings to SHA-256 in `Entry.Hash` (so their content
hashes differ short of a SHA-256 collision), and likewise for entries that
differ only in `cmdline`. -/
theorem entry_hash_input_injective_description_cmdline :
    ∀ (e : catalog.Entry) (d c : Str),
      (d ≠ e.description →
        catalog.hashInput { e with description := d } ≠ catalog.hashInput e) ∧
      (c ≠ e.cmdline →
        catalog.hashInput { e with cmdline := c } ≠ catalog.hashInput e) := by
  intro e d c
  constructor
  · intro h
    simp only [catalog.hashInput, catalog.hashInputBase, catalog.extPart,
      List.append_assoc, List.cons_append]
    exact append_left_ne (cons_ne_cons (append_right_ne h))
  · intro h
    simp only [catalog.hashInput, catalog.hashInputBase, catalog.extPart,
      List.append_assoc, List.cons_append]
    exact append_left_ne (cons_ne_cons (append_left_ne (cons_ne_cons (append_left_ne
      (cons_ne_cons (append_left_ne (cons_ne_cons (append_left_ne (cons_ne_cons
      (append_right_ne h))))))))))

/-- Witness for `entry_hash_input_injective_description_cmdline` at a
concrete entry. -/
theorem entry_hash_input_injective_witness :
    catalog.hashInput { entryA with description := bytes "x" } ≠ catalog.hashInput entryA :=
  (entry_hash_input_injective_description_cmdline entryA (bytes "x") (bytes "y")).1 (by decide)

/-- C4 (counterexample): changing hashed fields need not change the hash —
shifting a zero byte across the name/description boundary yields two entries
that differ in the hashed fields `name` and `description` yet have equal
`Entry.Hash`. -/
theorem entry_hash_nul_collision :
    entryNulA.name ≠ entryNulB.name ∧ entryNulA.description ≠ entryNulB.description ∧
      catalog.Entry.Hash entryNulA = catalog.Entry.Hash entryNulB := by
  exact ⟨by decide, by decide, by decide⟩

/-- C4 (amended): `Entry.Hash` is deterministic — it depends only on the
hashed fields; an entry with empty extended fields hashes exactly the
base-fields serialization (backward compatibility); and changing any single
hashed field — any scalar field unconditionally, the name-sorted file list
or the var (key, default) list when their strings are NUL-free — changes
the byte string fed to SHA-256, hence the hash short of a SHA-256
collision.  (Simultaneous changes of several fields can collide when values
contain NUL bytes.) -/
theorem entry_hash_deterministic_and_field_sensitive :
    (∀ e1 e2 : catalog.Entry, hashedFields e1 = hashedFields e2 →
      catalog.Entry.Hash e1 = catalog.Entry.Hash e2) ∧
    (∀ e : catalog.Entry,
      e.osFamily = [] → e.kernelParams = [] → e.configTemplate = [] → e.vars = [] →
      catalog.Entry.Hash e = hexEncode (sha256 (catalog.hashInputBase e))) ∧
    (∀ (e : catalog.Entry) (s : Str),
      (s ≠ e.name → catalog.hashInput { e with name := s } ≠ catalog.hashInput e) ∧
      (s ≠ e.description →
        catalog.hashInput { e with description := s } ≠ catalog.hashInput e) ∧
      (s ≠ e.version → catalog.hashInput { e with version := s } ≠ catalog.hashInput e) ∧
      (s ≠ e.arch → catalog.hashInput { e with arch := s } ≠ catalog.hashInput e) ∧
      (s ≠ e.bootType → catalog.hashInput { e with bootType := s } ≠ catalog.hashInput e) ∧
      (s ≠ e.cmdline → catalog.hashInput { e with cmdline := s } ≠ catalog.hashInput e) ∧
      (s ≠ e.ipxeScript →
        catalog.hashInput { e with ipxeScript := s } ≠ catalog.hashInput e) ∧
      (s ≠ e.osFamily → catalog.hashInput { e with osFamily := s } ≠ catalog.hashInput e) ∧
      (s ≠ e.kernelParams →
        catalog.hashInput { e with kernelParams := s } ≠ catalog.hashInput e) ∧
      (s ≠ e.configTemplate →
        catalog.hashInput { e with configTemplate := s } ≠ catalog.hashInput e)) ∧
    (∀ (e : catalog.Entry) (fs : List catalog.File),
      nulFreePairs (e.files.map fileKey) → nulFreePairs (fs.map fileKey) →
      (catalog.sortFiles fs).map fileKey ≠ (catalog.sortFiles e.files).map fileKey →
      catalog.hashInput { e with files := fs } ≠ catalog.hashInput e) ∧
    (∀ (e : catalog.Entry) (vs : List catalog.VarDef),
      nulFreePairs (e.vars.map varKey) → nulFreePairs (vs.map varKey) →
      vs.map varKey ≠ e.vars.map varKey →
      catalog.hashInput { e with vars := vs } ≠ catalog.hashInput e) := by
  refine ⟨?_, ?_, ?_, ?_, ?_⟩
  · -- determinism: the hash reads only the hashed fields
    intro e1 e2 h
    simp only [hashedFields, Prod.mk.injEq] at h
    obtain ⟨h1, h2, h3, h4, h5, h6, h7, h8, h9, h10, h11, h12⟩ := h
    have hfiles : (catalog.sortFiles e1.files).map catalog.serFile =
        (catalog.sortFiles e2.files).map catalog.serFile := by
      have a1 : (catalog.sortFiles e1.files).map catalog.serFile =
          ((catalog.sortFiles e1.files).map fileKey).map serPair := by
        rw [List.map_map]; rfl
      have a2 : (catalog.sortFiles e2.files).map catalog.serFile =
          ((catalog.sortFiles e2.files).map fileKey).map serPair := by
        rw [List.map_map]; rfl
      rw [a1, a2, h8]
    have hvars : e1.vars.map catalog.serVar = e2.vars.map catalog.serVar := by
      have a1 : e1.vars.map catalog.serVar = (e1.vars.map varKey).map serPair := by
        rw [List.map_map]; rfl
      have a2 : e2.vars.map catalog.serVar = (e2.vars.map varKey).map serPair := by
        rw [List.map_map]; rfl
      rw [a1, a2, h12]
    have hvnil : (e1.vars = []) ↔ (e2.vars = []) := by
      constructor <;> intro hv
      · rw [hv] at h12
        exact List.map_eq_nil_iff.mp h12.symm
      · rw [hv] at h12
        exact List.map_eq_nil_iff.mp h12
    show hexEncode (sha256 (catalog.hashInput e1)) = hexEncode (sha256 (catalog.hashInput e2))
    suffices hsuff : catalog.hashInput e1 = catalog.hashInput e2 by rw [hsuff]
    simp only [catalog.hashInput, catalog.hashInputBase, catalog.extPart]
    rw [h1, h2, h3, h4, h5, h6, h7, hfiles, h9, h10, h11, hvars]
    congr 1
    exact if_congr (or_congr Iff.rfl (or_congr Iff.rfl (or_congr Iff.rfl
      (not_congr hvnil)))) rfl rfl
  · -- backward compatibility: empty extended fields hash as the base fields
    intro e h9 h10 h11 h12
    have hext : catalog.extPart e = [] := by
      simp [catalog.extPart, h9, h10, h11, h12]
    show hexEncode (sha256 (catalog.hashInput e)) = _
    rw [catalog.hashInput, hext, List.append_nil]
  · -- single scalar field changes alter the hash input
    intro e s
    refine ⟨?_, ?_, ?_, ?_, ?_, ?_, ?_, ?_, ?_, ?_⟩ <;> intro h
    · simp only [catalog.hashInput, catalog.hashInputBase, catalog.extPart,
        List.append_assoc, List.cons_append]
      exact append_right_ne h
    · simp only [catalog.hashInput, catalog.hashInputBase, catalog.extPart,
        List.append_assoc, List.cons_append]
      exact append_left_ne (cons_ne_cons (append_right_ne h))
    · simp only [catalog.hashInput, catalog.hashInputBase, catalog.extPart,
        List.append_assoc, List.cons_append]
      exact append_left_ne (cons_ne_cons (append_left_ne (cons_ne_cons
        (append_right_ne h))))
    · simp only [catalog.hashInput, catalog.hashInputBase, catalog.extPart,
        List.append_assoc, List.cons_append]
      exact append_left_ne (cons_ne_cons (append_left_ne (cons_ne_cons (append_left_ne
        (cons_ne_cons (append_right_ne h))))))
    · simp only [catalog.hashInput, catalog.hashInputBase, catalog.extPart,
        List.append_assoc, List.cons_append]
      exact append_left_ne (cons_ne_cons (append_left_ne (cons_ne_cons (append_left_ne
        (cons_ne_cons (append_left_ne (cons_ne_cons (append_right_ne h))))))))
    · simp only [catalog.hashInput, catalog.hashInputBase, catalog.extPart,
        List.append_assoc, List.cons_append]
      exact append_left_ne (cons_ne_cons (append_left_ne (cons_ne_cons (append_left_ne
        (cons_ne_cons (append_left_ne (cons_ne_cons (append_left_ne (cons_ne_cons
        (append_right_ne h))))))))))
    · simp only [catalog.hashInput, catalog.hashInputBase, catalog.extPart,
        List.append_assoc, List.cons_append]
      exact append_left_ne (cons_ne_cons (append_left_ne (cons_ne_cons (append_left_ne
        (cons_ne_cons (append_left_ne (cons_ne_cons (append_left_ne (cons_ne_cons
        (append_left_ne (cons_ne_cons (append_right_ne h))))))))))))
    · -- osFamily
      have hext : catalog.extPart { e with osFamily := s } ≠ catalog.extPart e := by
        simp only [catalog.extPart, List.append_assoc, List.cons_append]
        by_cases h1 : s ≠ [] ∨ e.kernelParams ≠ [] ∨ e.configTemplate ≠ [] ∨ e.vars ≠ []
        · rw [if_pos h1]
          by_cases h2 : e.osFamily ≠ [] ∨ e.kernelParams ≠ [] ∨ e.configTemplate ≠ [] ∨
              e.vars ≠ []
          · rw [if_pos h2]
            exact append_right_ne h
          · rw [if_neg h2]
            simp
        · rw [if_neg h1]
          by_cases h2 : e.osFamily ≠ [] ∨ e.kernelParams ≠ [] ∨ e.configTemplate ≠ [] ∨
              e.vars ≠ []
          · rw [if_pos h2]
            intro hh
            exact absurd hh.symm (by simp)
          · push_neg at h1 h2
            exact absurd (h1.1.trans h2.1.symm) h
      show catalog.hashInputBase _ ++ _ ≠ catalog.hashInputBase e ++ _
      exact append_left_ne hext
    · -- kernelParams
      have hext : catalog.extPart { e with kernelParams := s } ≠ catalog.extPart e := by
        simp only [catalog.extPart, List.append_assoc, List.cons_append]
        by_cases h1 : e.osFamily ≠ [] ∨ s ≠ [] ∨ e.configTemplate ≠ [] ∨ e.vars ≠ []
        · rw [if_pos h1]
          by_cases h2 : e.osFamily ≠ [] ∨ e.kernelParams ≠ [] ∨ e.configTemplate ≠ [] ∨
              e.vars ≠ []
          · rw [if_pos h2]
            exact append_left_ne (cons_ne_cons (append_right_ne h))
          · rw [if_neg h2]
            simp
        · rw [if_neg h1]
          by_cases h2 : e.osFamily ≠ [] ∨ e.kernelParams ≠ [] ∨ e.configTemplate ≠ [] ∨
              e.vars ≠ []
          · rw [if_pos h2]
            intro hh
            exact absurd hh.symm (by simp)
          · push_neg at h1 h2
            exact absurd (h1.2.1.trans h2.2.1.symm) h
      show catalog.hashInputBase _ ++ _ ≠ catalog.hashInputBase e ++ _
      exact append_left_ne hext
    · -- configTemplate
      have hext : catalog.extPart { e with configTemplate := s } ≠ catalog.extPart e := by
        simp only [catalog.extPart, List.append_assoc, List.cons_append]
        by_cases h1 : e.osFamily ≠ [] ∨ e.kernelParams ≠ [] ∨ s ≠ [] ∨ e.vars ≠ []
        · rw [if_pos h1]
          by_cases h2 : e.osFamily ≠ [] ∨ e.kernelParams ≠ [] ∨ e.configTemplate ≠ [] ∨
              e.vars ≠ []
          · rw [if_pos h2]
            exact append_left_ne (cons_ne_cons (append_left_ne (cons_ne_cons
              (append_right_ne h))))
          · rw [if_neg h2]
            simp
        · rw [if_neg h1]
          by_cases h2 : e.osFamily ≠ [] ∨ e.kernelParams ≠ [] ∨ e.configTemplate ≠ [] ∨
              e.vars ≠ []
          · rw [if_pos h2]
            intro hh
            exact absurd hh.symm (by simp)
          · push_neg at h1 h2
            exact absurd (h1.2.2.1.trans h2.2.2.1.symm) h
      show catalog.hashInputBase _ ++ _ ≠ catalog.hashInputBase e ++ _
      exact append_left_ne hext
  · -- changing the name-sorted file list alters the hash input
    intro e fs hnf1 hnf2 hne
    simp only [catalog.hashInput, catalog.hashInputBase, catalog.extPart,
      List.append_assoc, List.cons_append]
    refine append_left_ne (cons_ne_cons (append_left_ne (cons_ne_cons (append_left_ne
      (cons_ne_cons (append_left_ne (cons_ne_cons (append_left_ne (cons_ne_cons
      (append_left_ne (cons_ne_cons (append_left_ne (cons_ne_cons
      (append_right_ne ?_))))))))))))))
    intro hfl
    apply hne
    have a1 : (catalog.sortFiles fs).map catalog.serFile =
        ((catalog.sortFiles fs).map fileKey).map serPair := by
      rw [List.map_map]; rfl
    have a2 : (catalog.sortFiles e.files).map catalog.serFile =
        ((catalog.sortFiles e.files).map fileKey).map serPair := by
      rw [List.map_map]; rfl
    rw [a1, a2] at hfl
    exact serPairs_flatten_inj (nulFree_sortFiles hnf2) (nulFree_sortFiles hnf1) hfl
  · -- changing the var (key, default) list alters the hash input
    intro e vs hnf1 hnf2 hne
    have hext : catalog.extPart { e with vars := vs } ≠ catalog.extPart e := by
      simp only [catalog.extPart, List.append_assoc, List.cons_append]
      by_cases h1 : e.osFamily ≠ [] ∨ e.kernelParams ≠ [] ∨ e.configTemplate ≠ [] ∨
          vs ≠ []
      · rw [if_pos h1]
        by_cases h2 : e.osFamily ≠ [] ∨ e.kernelParams ≠ [] ∨ e.configTemplate ≠ [] ∨
            e.vars ≠ []
        · rw [if_pos h2]
          refine append_left_ne (cons_ne_cons (append_left_ne (cons_ne_cons
            (append_left_ne (cons_ne_cons ?_)))))
          intro hfl
          apply hne
          have a1 : vs.map catalog.serVar = (vs.map varKey).map serPair := by
            rw [List.map_map]; rfl
          have a2 : e.vars.map catalog.serVar = (e.vars.map varKey).map serPair := by
            rw [List.map_map]; rfl
          rw [a1, a2] at hfl
          exact serPairs_flatten_inj hnf2 hnf1 hfl
        · rw [if_neg h2]
          simp
      · rw [if_neg h1]
        by_cases h2 : e.osFamily ≠ [] ∨ e.kernelParams ≠ [] ∨ e.configTemplate ≠ [] ∨
            e.vars ≠ []
        · rw [if_pos h2]
          intro hh
          exact absurd hh.symm (by simp)
        · push_neg at h1 h2
          exact absurd (by rw [h1.2.2.2, h2.2.2.2]) hne
    show catalog.hashInputBase _ ++ _ ≠ catalog.hashInputBase e ++ _
    exact append_left_ne hext

/-! #### Token lemmas -/

theorem encB64_lt : ∀ s, encB64 s < 256 := by
  intro s
  by_cases h : s < 64
  · exact (by decide : ∀ s, s < 64 → encB64 s < 256) s h
  · rw [encB64, List.getD_eq_default]
    · norm_num
    · have hl : b64alphabet.length = 64 := by decide
      omega

theorem decB64_encB64 : ∀ s, s < 64 → decB64 (encB64 s) = some s := by decide

theorem b64encode_lt : ∀ (m : Str), ∀ c ∈ b64encode m, c < 256 := by
  intro m
  induction m using b64encode.induct with
  | case1 => simp [b64encode]
  | case2 b1 =>
    intro c hc
    rcases (by simpa [b64encode] using hc : c = _ ∨ c = _) with rfl | rfl <;> exact encB64_lt _
  | case3 b1 b2 =>
    intro c hc
    rcases (by simpa [b64encode] using hc : c = _ ∨ c = _ ∨ c = _) with rfl | rfl | rfl <;>
      exact encB64_lt _
  | case4 b1 b2 b3 rest ih =>
    intro c hc
    rcases (by simpa [b64encode] using hc :
        c = _ ∨ c = _ ∨ c = _ ∨ c = _ ∨ c ∈ b64encode rest) with rfl | rfl | rfl | rfl | hm
    · exact encB64_lt _
    · exact encB64_lt _
    · exact encB64_lt _
    · exact encB64_lt _
    · exact ih c hm

theorem b64encode_ne_nil {m : Str} (h : m ≠ []) : b64encode m ≠ [] := by
  rcases m with _ | ⟨b1, _ | ⟨b2, _ | ⟨b3, rest⟩⟩⟩ <;> simp [b64encode] at h ⊢

/-- Unpadded base64url decoding inverts encoding on byte lists. -/
theorem b64_roundtrip : ∀ (m : Str), (∀ b ∈ m, b < 256) → b64decode (b64encode m) = some m := by
  intro m
  induction m using b64encode.induct with
  | case1 => intro _; rfl
  | case2 b1 =>
    intro hb
    have h1 := hb b1 (by simp)
    simp only [b64encode, b64decode,
      decB64_encB64 (b1 / 4) (by omega), decB64_encB64 (b1 % 4 * 16) (by omega)]
    congr 1
    congr 1
    omega
  | case3 b1 b2 =>
    intro hb
    have h1 := hb b1 (by simp)
    have h2 := hb b2 (by simp)
    simp only [b64encode, b64decode, decB64_encB64 (b1 / 4) (by omega),
      decB64_encB64 (b1 % 4 * 16 + b2 / 16) (by omega), decB64_encB64 (b2 % 16 * 4) (by omega)]
    congr 1
    congr 1
    · omega
    · congr 1
      omega
  | case4 b1 b2 b3 rest ih =>
    intro hb
    have h1 := hb b1 (by simp)
    have h2 := hb b2 (by simp)
    have h3 := hb b3 (by simp)
    have hrest := ih (fun b hm => hb b (by simp [hm]))
    simp only [b64encode, b64decode, decB64_encB64 (b1 / 4) (by omega),
      decB64_encB64 (b1 % 4 * 16 + b2 / 16) (by omega),
      decB64_encB64 (b2 % 16 * 4 + b3 / 64) (by omega), decB64_encB64 (b3 % 64) (by omega),
      hrest]
    congr 1
    congr 1
    · omega
    · congr 1
      · omega
      · congr 1
        omega

theorem decBytes_digit {n : Nat} : ∀ c ∈ decBytes n, 48 ≤ c ∧ c ≤ 57 := by
  intro c hc
  rw [decBytes] at hc
  split at hc
  · simp at hc
    omega
  · obtain ⟨d, hd, rfl⟩ := List.mem_map.mp hc
    have := Nat.digits_lt_base (by norm_num) (List.mem_reverse.mp hd)
    omega

theorem foldl_digits (l : List Nat) (acc : Nat) :
    List.foldl (fun a c => a * 10 + (c - 48)) acc (l.reverse.map (· + 48)) =
      acc * 10 ^ l.length + Nat.ofDigits 10 l := by
  induction l generalizing acc with
  | nil => simp [Nat.ofDigits]
  | cons d ds ih =>
    rw [List.reverse_cons, List.map_append, List.foldl_append, ih]
    simp only [List.map_cons, List.map_nil, List.foldl_cons, List.foldl_nil,
      Nat.ofDigits_cons, List.length_cons]
    have : d + 48 - 48 = d := by omega
    rw [this, pow_succ]
    ring

/-- `strconv.ParseInt` inverts `fmt %d` below `2^63`. -/
theorem parse_decBytes {n : Nat} (h : n < 2 ^ 63) : parseIntBytes (decBytes n) = some n := by
  rw [parseIntBytes, if_pos]
  · have hv : (decBytes n).foldl (fun a c => a * 10 + (c - 48)) 0 = n := by
      rw [decBytes]
      split
      · simp only [List.foldl_cons, List.foldl_nil]
        omega
      · rw [foldl_digits]
        simp [Nat.ofDigits_digits]
    rw [hv, if_pos h]
  · refine ⟨?_, ?_⟩
    · rw [decBytes]
      split
      · simp
      · simpa [Nat.digits_ne_nil_iff_ne_zero] using (by assumption : ¬n = 0)
    · rw [List.all_eq_true]
      intro c hc
      exact decide_eq_true (decBytes_digit c hc)

theorem takeWhile_append_cons {p : Nat → Bool} :
    ∀ {a : Str} {x : Nat} {b : Str}, (∀ c ∈ a, p c = true) → p x = false →
      (a ++ x :: b).takeWhile p = a ∧ (a ++ x :: b).dropWhile p = x :: b := by
  intro a
  induction a with
  | nil =>
    intro x b _ hx
    simp [List.takeWhile, List.dropWhile, hx]
  | cons c cs ih =>
    intro x b ha hx
    have hc : p c = true := ha c (by simp)
    have := ih (x := x) (b := b) (fun d hd => ha d (by simp [hd])) hx
    simp [List.takeWhile, List.dropWhile, hc, this.1, this.2]

theorem sha256_length_bytes : ∀ (m : Str), ∀ c ∈ sha256 m, c < 256 := by
  intro m c hc
  rw [sha256] at hc
  obtain ⟨l, hl, hcl⟩ := List.mem_flatten.mp hc
  obtain ⟨w, _, rfl⟩ := List.mem_map.mp hl
  rcases (by simpa [wordBytes] using hcl : c = _ ∨ c = _ ∨ c = _ ∨ c = _) with
    rfl | rfl | rfl | rfl <;> exact Nat.mod_lt _ (by norm_num)

/-- C6: when the signing key is set, the `tok=` token `signURL` emits for a
URL verifies against the URL's path up to the embedded expiry (one hour
after signing) and fails after it; when the signing key is absent,
`validateToken` accepts every request. -/
theorem sign_validate_roundtrip :
    (∀ (key : Str) (t : Nat) (p tok : Str), key = [] → validateToken key t p tok = true) ∧
    (∀ (key : Str) (now t : Nat) (rawURL : Str), key ≠ [] → now + 3600 < 2 ^ 63 →
      (t ≤ now + 3600 →
        validateToken key t (pathOf rawURL) (signToken key now (pathOf rawURL)) = true) ∧
      (t > now + 3600 →
        validateToken key t (pathOf rawURL) (signToken key now (pathOf rawURL)) = false)) := by
  constructor
  · intro key t p tok hk
    rw [validateToken, if_pos (by simp [hk])]
  · intro key now t rawURL hkey hbound
    have hkeyb : (key == []) = false := beq_eq_false_iff_ne.mpr hkey
    set p := pathOf rawURL with hp
    set expiry := now + 3600 with he
    set sig := hmacSha256 key (decBytes expiry ++ 124 :: p) with hsig
    set M : Str := decBytes expiry ++ 46 :: b64encode sig with hM
    have hMlt : ∀ b ∈ M, b < 256 := by
      intro b hb
      rw [hM] at hb
      rcases List.mem_append.mp hb with h | h
      · have := decBytes_digit b h
        omega
      · rcases List.mem_cons.mp h with rfl | h
        · norm_num
        · exact b64encode_lt _ b h
    have htokne : signToken key now p ≠ [] := by
      rw [signToken]
      exact b64encode_ne_nil (by simp)
    have htok : signToken key now p = b64encode M := by rw [signToken]
    have hdec : b64decode (signToken key now p) = some M := by
      rw [htok]
      exact b64_roundtrip M hMlt
    have hsplit := takeWhile_append_cons (p := fun c => !(c == 46))
      (a := decBytes expiry) (x := 46) (b := b64encode sig)
      (fun c hc => by
        have := decBytes_digit c hc
        simp only [Bool.not_eq_true']
        refine beq_eq_false_iff_ne.mpr ?_
        omega)
      (by simp)
    have hany : M.any (fun c => c == 46) = true := by
      rw [hM, List.any_append]
      simp
    have hfront : validateToken key t p (signToken key now p) =
        (if t > expiry then false
         else match b64decode (b64encode sig) with
           | none => false
           | some sigBytes => sigBytes == hmacSha256 key (decBytes expiry ++ 124 :: p)) := by
      rw [validateToken, if_neg (by simp [hkeyb]), if_neg (by simpa using htokne), hdec]
      simp only [hM] at hany ⊢
      rw [if_neg (by simp [hany]), hsplit.1, hsplit.2]
      simp only [List.drop_succ_cons, List.drop_zero]
      rw [parse_decBytes (he ▸ hbound)]
    constructor
    · intro ht
      rw [hfront, if_neg (by omega), b64_roundtrip sig (sha256_length_bytes _)]
      exact beq_self_eq_true _
    · intro ht
      rw [hfront, if_pos (by omega)]

/-- Witness for `sign_validate_roundtrip`: a concrete key, URL and times. -/
theorem sign_validate_roundtrip_witness :
    validateToken (bytes "k") 600 (pathOf (bytes "/config/7"))
        (signToken (bytes "k") 0 (pathOf (bytes "/config/7"))) = true ∧
      validateToken (bytes "k") 3601 (pathOf (bytes "/config/7"))
        (signToken (bytes "k") 0 (pathOf (bytes "/config/7"))) = false ∧
      validateToken [] 600 (bytes "/x") (bytes "junk") = true :=
  ⟨(sign_validate_roundtrip.2 (bytes "k") 0 600 (bytes "/config/7") (by decide)
      (by norm_num)).1 (by norm_num),
   (sign_validate_roundtrip.2 (bytes "k") 0 3601 (bytes "/config/7") (by decide)
      (by norm_num)).2 (by norm_num),
   sign_validate_roundtrip.1 [] 600 (bytes "/x") (bytes "junk") rfl⟩

/-! #### State-engine lemmas -/

theorem normalizeMAC_ne_nil {mac m : Str} (h : db.normalizeMAC mac = .ok m) : mac ≠ [] := by
  intro hm
  rw [hm] at h
  rw [(by rfl : db.normalizeMAC ([] : Str) =
    .error (bytes "invalid MAC address: "))] at h
  exact absurd h (by simp)

/-- Touching a MAC rewrites exactly the found row. -/
theorem find?_touchSystem {dbase : List db.System} {m : Str} (ip : Str) (now : Nat)
    {r : db.System} (h : dbase.find? (fun s => s.mac == m) = some r) :
    (db.touchSystem dbase m ip now).find? (fun s => s.mac == m) =
      some { r with ipAddr := ip, lastSeenAt := now } := by
  rw [db.touchSystem, List.find?_map]
  have hfun : ((fun s : db.System => s.mac == m) ∘ fun s : db.System =>
      if s.mac == m then { s with ipAddr := ip, lastSeenAt := now } else s) =
      (fun s : db.System => s.mac == m) := by
    funext s
    by_cases hs : (s.mac == m) = true <;> simp [Function.comp, hs]
  rw [hfun, h]
  have hr := List.find?_some h
  simp [Option.map, hr]

/-- Touching a MAC absent from the list is the identity. -/
theorem touchSystem_miss {dbase : List db.System} {m ip : Str} {now : Nat}
    (h : ∀ s ∈ dbase, (s.mac == m) = false) :
    db.touchSystem dbase m ip now = dbase := by
  rw [db.touchSystem]
  have : ∀ s ∈ dbase, (if s.mac == m then
      { s with ipAddr := ip, lastSeenAt := now } else s) = id s := by
    intro s hs
    simp [h s hs]
  rw [List.map_congr_left this, List.map_id]

/-- A string is a substring of anything it ends. -/
theorem subStr_suffix (pre s : Str) : subStr s (pre ++ s) = true := by
  rw [subStr, List.any_eq_true]
  refine ⟨pre.length, List.mem_range.mpr (by simp; omega), ?_⟩
  rw [List.drop_left, List.take_length]
  exact beq_self_eq_true s

/-- C10: a `GET /boot.ipxe` with a missing `mac` parameter, or one that is
not reducible to 12 hex digits after trimming, lowercasing and removing
`:`/`-`/`.` separators, answers 200 with exactly the exit script and
changes no row, no state and no events. -/
theorem boot_noop_on_bad_mac :
    ∀ (eng : httpserver.TemplateEngine) (ctx : httpserver.ServerCtx)
      (dbase : List db.System) (images : List db.Image) (profiles : List db.Profile)
      (events : List httpserver.Event) (nextID : Nat) (macQ clientIP host : Str) (now : Nat),
      (macQ = [] ∨
        ¬((((db.trimSpace macQ).map db.toLowerByte).filter
            (fun c => !(c == 58 || c == 45 || c == 46))).length = 12 ∧
          (((db.trimSpace macQ).map db.toLowerByte).filter
            (fun c => !(c == 58 || c == 45 || c == 46))).all db.isHexLowerByte)) →
      httpserver.handleBootScript eng ctx dbase images profiles events nextID
          macQ clientIP host now =
        (dbase, nextID, events, .ok (bytes "text/plain") ipxe.ExitScript) := by
  intro eng ctx dbase images profiles events nextID macQ clientIP host now h
  rcases h with rfl | hbad
  · rw [httpserver.handleBootScript, if_pos (by decide)]
  · by_cases hnil : macQ = []
    · rw [httpserver.handleBootScript, if_pos (by simp [hnil])]
    · have hnorm : db.normalizeMAC macQ = .error (bytes "invalid MAC address: " ++
          ((db.trimSpace macQ).map db.toLowerByte)) := by
        rw [db.normalizeMAC, if_neg hbad]
      rw [httpserver.handleBootScript, if_neg (by simpa using hnil)]
      rw [httpserver.autoRegisterStep, db.autoRegister, hnorm]

/-- Witness for `boot_noop_on_bad_mac` at a malformed MAC. -/
theorem boot_noop_on_bad_mac_witness :
    httpserver.handleBootScript
        ⟨fun _ _ => .error [], fun _ _ => .error [], fun _ _ => .error []⟩
        ⟨[], [], false⟩ [sysProv] [] [] [] 9 (bytes "zz:zz") (bytes "10.0.0.9")
        (bytes "duh") 5 =
      ([sysProv], 9, [], .ok (bytes "text/plain") ipxe.ExitScript) :=
  boot_noop_on_bad_mac _ _ _ _ _ _ _ _ _ _ _ (Or.inr (by decide))

/-- C7: every `GET /boot.ipxe` whose MAC normalizes but whose machine —
whether pre-existing or auto-registered by this very request (which starts
it in `discovered`) — has no assigned image, an empty hostname, or any
state other than `queued`, answers 200 with exactly the exit script
`#!ipxe\nexit\n`. -/
theorem boot_exit_for_unready :
    ∀ (eng : httpserver.TemplateEngine) (ctx : httpserver.ServerCtx)
      (dbase : List db.System) (images : List db.Image) (profiles : List db.Profile)
      (events : List httpserver.Event) (nextID : Nat) (macQ clientIP host : Str)
      (now : Nat) (m : Str),
      db.normalizeMAC macQ = .ok m →
      (dbase.find? (fun s => s.mac == m) = none ∨
        ∃ r, dbase.find? (fun s => s.mac == m) = some r ∧
          (r.state ≠ bytes "queued" ∨ r.imageID = none ∨ r.hostname = [])) →
      (httpserver.handleBootScript eng ctx dbase images profiles events nextID
          macQ clientIP host now).2.2.2 = .ok (bytes "text/plain") ipxe.ExitScript := by
  intro eng ctx dbase images profiles events nextID macQ clientIP host now m hnorm hcond
  have hne := normalizeMAC_ne_nil hnorm
  rw [httpserver.handleBootScript, if_neg (by simpa using hne)]
  rw [httpserver.autoRegisterStep, db.autoRegister, hnorm]
  rcases hcond with hmiss | ⟨r, hfind, hr⟩
  · have hfind' : ((dbase ++ [db.newRow nextID m clientIP now]).find?
        (fun s => s.mac == m)) = some (db.newRow nextID m clientIP now) := by
      rw [List.find?_append, hmiss]
      simp [db.newRow]
    simp [hmiss, hfind', db.newRow]
  · have htouch := find?_touchSystem clientIP now hfind
    rcases hr with h | h | h
    · have hq : (({ r with ipAddr := clientIP, lastSeenAt := now } : db.System).state ==
          bytes "queued") = false := beq_eq_false_iff_ne.mpr (by simpa using h)
      simp [hfind, htouch, hq]
    · simp [hfind, htouch, h]
    · simp [hfind, htouch, h]

/-- Witness for `boot_exit_for_unready`: an unknown MAC is auto-registered
by the request and still answers the exit script. -/
theorem boot_exit_for_unready_witness :
    (httpserver.handleBootScript
        ⟨fun _ _ => .error [], fun _ _ => .error [], fun _ _ => .error []⟩
        ⟨[], [], false⟩ [] [] [] [] 1 (bytes "aa-bb-cc-dd-ee-ff") (bytes "10.0.0.7")
        (bytes "duh") 3).2.2.2 = .ok (bytes "text/plain") ipxe.ExitScript :=
  boot_exit_for_unready _ _ _ _ _ _ _ _ _ _ _ (bytes "aa:bb:cc:dd:ee:ff") rfl (Or.inl rfl)

/-- Auto-registration for an already-present MAC only touches the row. -/
theorem autoRegisterStep_existing {dbase : List db.System} (nid : Nat)
    (evs : List httpserver.Event) {mac m : Str} (ip : Str) (now : Nat) {r : db.System}
    (hnorm : db.normalizeMAC mac = .ok m)
    (hfind : dbase.find? (fun s => s.mac == m) = some r) :
    httpserver.autoRegisterStep dbase nid evs mac ip now =
      .ok (db.touchSystem dbase m ip now, nid, evs,
        (db.touchSystem dbase m ip now).find? (fun s => s.mac == m), false) := by
  rw [httpserver.autoRegisterStep, db.autoRegister, hnorm]
  simp [hfind]

/-- Iterated auto-registration over a present MAC is iterated touching:
no new row, no events, never reported new. -/
theorem autoRegisterIter_existing :
    ∀ (ips : List (Str × Nat)) (dbase : List db.System) (row : db.System)
      (nid : Nat) (evs : List httpserver.Event) (mac m : Str),
      db.normalizeMAC mac = .ok m → row.mac = m →
      (∀ s ∈ dbase, (s.mac == m) = false) →
      httpserver.autoRegisterIter mac ips (dbase ++ [row]) nid evs =
        (dbase ++ [httpserver.applyTouches row ips], nid, evs,
         List.replicate ips.length false) := by
  intro ips
  induction ips with
  | nil =>
    intro dbase row nid evs mac m hnorm hm hmiss
    simp [httpserver.autoRegisterIter, httpserver.applyTouches]
  | cons p rest ih =>
    intro dbase row nid evs mac m hnorm hm hmiss
    obtain ⟨ip, now⟩ := p
    have hnone : dbase.find? (fun s => s.mac == m) = none :=
      List.find?_eq_none.mpr (fun x hx => by simp [hmiss x hx])
    have hfind : (dbase ++ [row]).find? (fun s => s.mac == m) = some row := by
      rw [List.find?_append, hnone]
      simp [hm]
    have hstep := autoRegisterStep_existing nid evs ip now hnorm hfind
    have h1 : db.touchSystem dbase m ip now = dbase := touchSystem_miss hmiss
    have htouch : db.touchSystem (dbase ++ [row]) m ip now =
        dbase ++ [{ row with ipAddr := ip, lastSeenAt := now }] := by
      rw [db.touchSystem, List.map_append]
      rw [db.touchSystem] at h1
      rw [h1]
      simp [hm]
    simp only [httpserver.autoRegisterIter, hstep, htouch]
    rw [ih dbase _ nid evs mac m hnorm (by simpa using hm) hmiss]
    simp [httpserver.applyTouches, List.replicate_succ]

/-- C5: auto-registration invoked N ≥ 1 times for a fresh MAC creates
exactly one row (state `discovered`, normalized MAC, schema defaults) and
fires exactly one `system.discovered` event; only the first invocation —
the one whose insert affected a row — reports the machine as new, and
every later invocation merely rewrites the row's observed IP and last-seen.
Second conjunct: one invocation for an already-present MAC keeps the row
count, fires no event, reports not-new, and touches the row. -/
theorem autoregister_once_and_touch :
    (∀ (first : Str × Nat) (rest : List (Str × Nat)) (dbase : List db.System)
      (nid : Nat) (evs : List httpserver.Event) (mac m : Str),
      db.normalizeMAC mac = .ok m →
      dbase.find? (fun s => s.mac == m) = none →
      httpserver.autoRegisterIter mac (first :: rest) dbase nid evs =
        (dbase ++ [httpserver.applyTouches (db.newRow nid m first.1 first.2) rest],
         nid + 1,
         evs ++ [httpserver.mkSystemEvent (db.newRow nid m first.1 first.2)
           (bytes "discovered")],
         true :: List.replicate rest.length false)) ∧
    (∀ (dbase : List db.System) (nid : Nat) (evs : List httpserver.Event)
      (mac m ip : Str) (now : Nat) (r : db.System),
      db.normalizeMAC mac = .ok m →
      dbase.find? (fun s => s.mac == m) = some r →
      httpserver.autoRegisterStep dbase nid evs mac ip now =
        .ok (db.touchSystem dbase m ip now, nid, evs,
          some { r with ipAddr := ip, lastSeenAt := now }, false) ∧
      (db.touchSystem dbase m ip now).length = dbase.length) := by
  constructor
  · intro first rest dbase nid evs mac m hnorm hmiss
    obtain ⟨ip, now⟩ := first
    have hmissall : ∀ s ∈ dbase, (s.mac == m) = false :=
      fun s hs => by simpa using List.find?_eq_none.mp hmiss s hs
    have hfind' : ((dbase ++ [db.newRow nid m ip now]).find?
        (fun s => s.mac == m)) = some (db.newRow nid m ip now) := by
      rw [List.find?_append, hmiss]
      simp [db.newRow]
    have hstep : httpserver.autoRegisterStep dbase nid evs mac ip now =
        .ok (dbase ++ [db.newRow nid m ip now], nid + 1,
          evs ++ [httpserver.mkSystemEvent (db.newRow nid m ip now) (bytes "discovered")],
          some (db.newRow nid m ip now), true) := by
      rw [httpserver.autoRegisterStep, db.autoRegister, hnorm]
      simp [hmiss, hfind']
    simp only [httpserver.autoRegisterIter, hstep]
    rw [autoRegisterIter_existing rest dbase _ (nid + 1) _ mac m hnorm (by simp [db.newRow])
      hmissall]
  · intro dbase nid evs mac m ip now r hnorm hfind
    refine ⟨?_, ?_⟩
    · rw [autoRegisterStep_existing nid evs ip now hnorm hfind,
        find?_touchSystem ip now hfind]
    · exact List.length_map _ _

/-- Witness for `autoregister_once_and_touch`: three boots of one fresh
MAC. -/
theorem autoregister_once_and_touch_witness :
    httpserver.autoRegisterIter (bytes "AA-BB-CC-00-11-22")
        [(bytes "ip1", 1), (bytes "ip2", 2)] [] 7 [] =
      ([httpserver.applyTouches (db.newRow 7 (bytes "aa:bb:cc:00:11:22") (bytes "ip1") 1)
          [(bytes "ip2", 2)]],
       8,
       [httpserver.mkSystemEvent (db.newRow 7 (bytes "aa:bb:cc:00:11:22") (bytes "ip1") 1)
         (bytes "discovered")],
       [true, false]) := by
  have h := autoregister_once_and_touch.1 (bytes "ip1", 1) [(bytes "ip2", 2)] [] 7 []
    (bytes "AA-BB-CC-00-11-22") (bytes "aa:bb:cc:00:11:22") rfl rfl
  simpa using h

/-- A signed callback for a `provisioning` machine transitions it to
`ready` and fires `system.ready`. -/
theorem handleCallback_provisioning {sys : db.System} {evs : List httpserver.Event}
    (hnorm : db.normalizeMAC sys.mac = .ok sys.mac)
    (hst : sys.state = bytes "provisioning") :
    httpserver.handleCallback [sys] evs true sys.mac 0 =
      ([{ sys with state := bytes "ready", stateChangedAt := 0 }],
       evs ++ [httpserver.mkSystemEvent
         { sys with state := bytes "ready", stateChangedAt := 0 } (bytes "ready")],
       .ok (bytes "application/json") (bytes "\x7b\"status\":\"ok\"\x7d\n")) := by
  have hne := normalizeMAC_ne_nil hnorm
  have hmacne : (sys.mac == ([] : Str)) = false := beq_eq_false_iff_ne.mpr hne
  have htrans : db.transitionSystemStateByMAC [sys] sys.mac (bytes "provisioning")
      (bytes "ready") 0 = .ok [{ sys with state := bytes "ready", stateChangedAt := 0 }] := by
    rw [db.transitionSystemStateByMAC, hnorm]
    have hhit : (sys.mac == sys.mac && sys.state == bytes "provisioning") = true := by
      simp [hst]
    simp [hhit, hst]
  have hget : db.getSystemByMAC [{ sys with state := bytes "ready", stateChangedAt := 0 }]
      sys.mac = .ok (some { sys with state := bytes "ready", stateChangedAt := 0 }) := by
    rw [db.getSystemByMAC, hnorm]
    simp
  rw [httpserver.handleCallback]
  simp [hmacne, htrans, hget]

/-- A signed callback for a machine already `ready` succeeds without
changing the row — but it, too, fires a `system.ready` event. -/
theorem handleCallback_ready {sys : db.System} {evs : List httpserver.Event}
    (hnorm : db.normalizeMAC sys.mac = .ok sys.mac)
    (hst : sys.state = bytes "ready") :
    httpserver.handleCallback [sys] evs true sys.mac 0 =
      ([sys], evs ++ [httpserver.mkSystemEvent sys (bytes "ready")],
       .ok (bytes "application/json") (bytes "\x7b\"status\":\"ok\"\x7d\n")) := by
  have hne := normalizeMAC_ne_nil hnorm
  have hmacne : (sys.mac == ([] : Str)) = false := beq_eq_false_iff_ne.mpr hne
  have hnp : (sys.state == bytes "provisioning") = false := by
    rw [hst]
    decide
  have htrans : db.transitionSystemStateByMAC [sys] sys.mac (bytes "provisioning")
      (bytes "ready") 0 = .ok [sys] := by
    rw [db.transitionSystemStateByMAC, hnorm]
    simp [hnp, hst]
    exact fun h => absurd h (by decide)
  have hget : db.getSystemByMAC [sys] sys.mac = .ok (some sys) := by
    rw [db.getSystemByMAC, hnorm]
    simp
  rw [httpserver.handleCallback]
  simp [hmacne, htrans, hget]

/-- Iterated callbacks on a `ready` machine: every call answers ok, the
row never changes, and every call fires another `system.ready` event. -/
theorem callbackIter_ready :
    ∀ (n : Nat) (sys : db.System) (evs : List httpserver.Event),
      db.normalizeMAC sys.mac = .ok sys.mac → sys.state = bytes "ready" →
      httpserver.callbackIter sys.mac n [sys] evs =
        ([sys], evs ++ List.replicate n (httpserver.mkSystemEvent sys (bytes "ready")),
         List.replicate n
           (.ok (bytes "application/json") (bytes "\x7b\"status\":\"ok\"\x7d\n"))) := by
  intro n
  induction n with
  | zero =>
    intro sys evs _ _
    simp [httpserver.callbackIter]
  | succ k ih =>
    intro sys evs hnorm hst
    simp only [httpserver.callbackIter, handleCallback_ready hnorm hst]
    rw [ih sys _ hnorm hst]
    simp [List.replicate_succ, List.append_assoc]

/-- C1 (amended): N ≥ 1 signed callbacks for a `provisioning` machine all
answer `{"status":"ok"}` and leave the machine `ready`, but enqueue one
`system.ready` event per call — N events in total, not one; a callback for
a machine in any state other than `provisioning`/`ready` fails with a 500
and changes neither the row nor the events. -/
theorem callback_state_and_events :
    (∀ (n : Nat) (sys : db.System) (evs : List httpserver.Event),
      db.normalizeMAC sys.mac = .ok sys.mac → sys.state = bytes "provisioning" →
      httpserver.callbackIter sys.mac (n + 1) [sys] evs =
        ([{ sys with state := bytes "ready", stateChangedAt := 0 }],
         evs ++ List.replicate (n + 1) (httpserver.mkSystemEvent
           { sys with state := bytes "ready", stateChangedAt := 0 } (bytes "ready")),
         List.replicate (n + 1)
           (.ok (bytes "application/json") (bytes "\x7b\"status\":\"ok\"\x7d\n")))) ∧
    (∀ (sys : db.System) (evs : List httpserver.Event) (now : Nat),
      db.normalizeMAC sys.mac = .ok sys.mac →
      sys.state ≠ bytes "provisioning" → sys.state ≠ bytes "ready" →
      httpserver.handleCallback [sys] evs true sys.mac now =
        ([sys], evs, .err 500 (bytes "Internal Server Error"))) := by
  constructor
  · intro n sys evs hnorm hst
    have hready := callbackIter_ready n
      { sys with state := bytes "ready", stateChangedAt := 0 }
      (evs ++ [httpserver.mkSystemEvent
        { sys with state := bytes "ready", stateChangedAt := 0 } (bytes "ready")])
      hnorm rfl
    simp only [httpserver.callbackIter, handleCallback_provisioning hnorm hst, hready]
    simp [List.replicate_succ, List.append_assoc]
  · intro sys evs now hnorm hst1 hst2
    have hne := normalizeMAC_ne_nil hnorm
    have hmacne : (sys.mac == ([] : Str)) = false := beq_eq_false_iff_ne.mpr hne
    have hnp : (sys.state == bytes "provisioning") = false := beq_eq_false_iff_ne.mpr hst1
    have hnr : (sys.state == bytes "ready") = false := beq_eq_false_iff_ne.mpr hst2
    have htrans : db.transitionSystemStateByMAC [sys] sys.mac (bytes "provisioning")
        (bytes "ready") now =
        .error (bytes "state transition failed: expected " ++ bytes "provisioning" ++
          bytes ", got " ++ sys.state) := by
      rw [db.transitionSystemStateByMAC, hnorm]
      simp [hnp, hnr]
    rw [httpserver.handleCallback]
    simp [hmacne, htrans]

/-- C1 (counterexample): two callbacks for one `provisioning` machine both
answer ok and leave it `ready`, yet enqueue two `system.ready` events,
not one. -/
theorem callback_twice_two_ready_events :
    (httpserver.callbackIter (bytes "aa:bb:cc:dd:ee:ff") 2 [sysProv] []).2.2 =
        [.ok (bytes "application/json") (bytes "\x7b\"status\":\"ok\"\x7d\n"),
         .ok (bytes "application/json") (bytes "\x7b\"status\":\"ok\"\x7d\n")] ∧
      (httpserver.callbackIter (bytes "aa:bb:cc:dd:ee:ff") 2 [sysProv] []).1.map
          db.System.state = [bytes "ready"] ∧
      ((httpserver.callbackIter (bytes "aa:bb:cc:dd:ee:ff") 2 [sysProv] []).2.1.filter
        (fun e => e.type == bytes "system.ready")).length = 2 := by
  exact ⟨by decide, by decide, by decide⟩

/-- Witness for `callback_state_and_events`: two callbacks on a concrete
provisioning machine, and one callback on a discovered machine. -/
theorem callback_state_and_events_witness :
    httpserver.callbackIter sysProv.mac 2 [sysProv] [] =
        ([{ sysProv with state := bytes "ready", stateChangedAt := 0 }],
         List.replicate 2 (httpserver.mkSystemEvent
           { sysProv with state := bytes "ready", stateChangedAt := 0 } (bytes "ready")),
         List.replicate 2
           (.ok (bytes "application/json") (bytes "\x7b\"status\":\"ok\"\x7d\n"))) ∧
      httpserver.handleCallback [sysDisc] [] true sysDisc.mac 4 =
        ([sysDisc], [], .err 500 (bytes "Internal Server Error")) := by
  constructor
  · have h := callback_state_and_events.1 1 sysProv [] rfl rfl
    simpa using h
  · exact callback_state_and_events.2 sysDisc [] 4 rfl (by decide) (by decide)

/-- C8 (amended): the operator state actions succeed exactly under the
claimed guards, every rejection is a 400 that leaves rows and events
untouched, and the rejection message names the current state for `queue`
but names the required source state (not the current one) for the other
actions. -/
theorem state_action_guards :
    ∀ (dbase : List db.System) (events : List httpserver.Event) (id now : Nat)
      (sys : db.System), db.getSystemByID dbase id = some sys →
      ((sys.state = bytes "discovered" ∨ sys.state = bytes "ready" ∨
          sys.state = bytes "failed") → sys.imageID ≠ none → sys.hostname ≠ [] →
        httpserver.handleSystemStateAction dbase events id (bytes "queue") now =
          (db.updateSystemState dbase id (bytes "queued") now,
           events ++ [httpserver.mkSystemEvent sys (bytes "queued")], .rowHTML id)) ∧
      (sys.state ≠ bytes "discovered" → sys.state ≠ bytes "ready" →
          sys.state ≠ bytes "failed" →
        httpserver.handleSystemStateAction dbase events id (bytes "queue") now =
          (dbase, events, .err 400 (bytes "Cannot queue from state " ++ sys.state)) ∧
        subStr sys.state (bytes "Cannot queue from state " ++ sys.state) = true) ∧
      ((sys.state = bytes "discovered" ∨ sys.state = bytes "ready" ∨
          sys.state = bytes "failed") → (sys.imageID = none ∨ sys.hostname = []) →
        httpserver.handleSystemStateAction dbase events id (bytes "queue") now =
          (dbase, events,
           .err 400 (bytes "Image and hostname must be set before queuing"))) ∧
      (sys.state = bytes "queued" → sys.hostname ≠ [] →
        httpserver.handleSystemStateAction dbase events id (bytes "cancel") now =
          (db.updateSystemState dbase id (bytes "ready") now,
           events ++ [httpserver.mkSystemEvent sys (bytes "ready")], .rowHTML id)) ∧
      (sys.state = bytes "queued" → sys.hostname = [] →
        httpserver.handleSystemStateAction dbase events id (bytes "cancel") now =
          (db.updateSystemState dbase id (bytes "discovered") now,
           events ++ [httpserver.mkSystemEvent sys (bytes "discovered")], .rowHTML id)) ∧
      (sys.state ≠ bytes "queued" →
        httpserver.handleSystemStateAction dbase events id (bytes "cancel") now =
          (dbase, events, .err 400 (bytes "Can only cancel from queued state"))) ∧
      (sys.state = bytes "failed" →
        httpserver.handleSystemStateAction dbase events id (bytes "retry") now =
          (db.updateSystemState dbase id (bytes "queued") now,
           events ++ [httpserver.mkSystemEvent sys (bytes "queued")], .rowHTML id)) ∧
      (sys.state ≠ bytes "failed" →
        httpserver.handleSystemStateAction dbase events id (bytes "retry") now =
          (dbase, events, .err 400 (bytes "Can only retry from failed state"))) ∧
      (sys.state = bytes "provisioning" →
        httpserver.handleSystemStateAction dbase events id (bytes "mark_failed") now =
          (db.updateSystemState dbase id (bytes "failed") now,
           events ++ [httpserver.mkSystemEvent sys (bytes "failed")], .rowHTML id)) ∧
      (sys.state ≠ bytes "provisioning" →
        httpserver.handleSystemStateAction dbase events id (bytes "mark_failed") now =
          (dbase, events, .err 400 (bytes "Can only mark failed from provisioning state"))) ∧
      (sys.state = bytes "ready" →
        httpserver.handleSystemStateAction dbase events id (bytes "reimage") now =
          (db.updateSystemState dbase id (bytes "queued") now,
           events ++ [httpserver.mkSystemEvent sys (bytes "queued")], .rowHTML id)) ∧
      (sys.state ≠ bytes "ready" →
        httpserver.handleSystemStateAction dbase events id (bytes "reimage") now =
          (dbase, events, .err 400 (bytes "Can only reimage from ready state"))) ∧
      (∀ action : Str, action ∉ [bytes "queue", bytes "cancel", bytes "retry",
          bytes "mark_failed", bytes "reimage"] →
        httpserver.handleSystemStateAction dbase events id action now =
          (dbase, events, .err 400 (bytes "Unknown action"))) := by
  intro dbase events id now sys hfind
  refine ⟨?_, ?_, ?_, ?_, ?_, ?_, ?_, ?_, ?_, ?_, ?_, ?_, ?_⟩
  · intro hst hi hh
    have bi : (sys.imageID == none) = false := beq_eq_false_iff_ne.mpr hi
    have bh : (sys.hostname == ([] : Str)) = false := beq_eq_false_iff_ne.mpr hh
    have bst : (!(sys.state == bytes "discovered") && !(sys.state == bytes "ready") &&
        !(sys.state == bytes "failed")) = false := by
      rcases hst with h | h | h <;> simp [h]
    simp only [httpserver.handleSystemStateAction, hfind]
    simp +decide [bst, bi, bh]
  · intro h1 h2 h3
    refine ⟨?_, subStr_suffix _ _⟩
    have b1 : (sys.state == bytes "discovered") = false := beq_eq_false_iff_ne.mpr h1
    have b2 : (sys.state == bytes "ready") = false := beq_eq_false_iff_ne.mpr h2
    have b3 : (sys.state == bytes "failed") = false := beq_eq_false_iff_ne.mpr h3
    simp only [httpserver.handleSystemStateAction, hfind]
    simp +decide [b1, b2, b3]
  · intro hst hguard
    have bst : (!(sys.state == bytes "discovered") && !(sys.state == bytes "ready") &&
        !(sys.state == bytes "failed")) = false := by
      rcases hst with h | h | h <;> simp [h]
    have bguard : (sys.imageID == none || sys.hostname == ([] : Str)) = true := by
      rcases hguard with h | h <;> simp [h]
    simp only [httpserver.handleSystemStateAction, hfind]
    simp +decide [bst, bguard]
    exact fun h => hguard.resolve_left h
  · intro hst hh
    have bh : (sys.hostname == ([] : Str)) = false := beq_eq_false_iff_ne.mpr hh
    simp only [httpserver.handleSystemStateAction, hfind]
    simp +decide [hst, bh]
    exact fun h => absurd h hh
  · intro hst hh
    simp only [httpserver.handleSystemStateAction, hfind]
    simp +decide [hst, hh]
  · intro hst
    have b : (sys.state == bytes "queued") = false := beq_eq_false_iff_ne.mpr hst
    simp only [httpserver.handleSystemStateAction, hfind]
    simp +decide [b]
  · intro hst
    simp only [httpserver.handleSystemStateAction, hfind]
    simp +decide [hst]
  · intro hst
    have b : (sys.state == bytes "failed") = false := beq_eq_false_iff_ne.mpr hst
    simp only [httpserver.handleSystemStateAction, hfind]
    simp +decide [b]
  · intro hst
    simp only [httpserver.handleSystemStateAction, hfind]
    simp +decide [hst]
  · intro hst
    have b : (sys.state == bytes "provisioning") = false := beq_eq_false_iff_ne.mpr hst
    simp only [httpserver.handleSystemStateAction, hfind]
    simp +decide [b]
  · intro hst
    simp only [httpserver.handleSystemStateAction, hfind]
    simp +decide [hst]
  · intro hst
    have b : (sys.state == bytes "ready") = false := beq_eq_false_iff_ne.mpr hst
    simp only [httpserver.handleSystemStateAction, hfind]
    simp +decide [b]
  · intro action ha
    simp only [List.mem_cons, List.mem_singleton, not_or] at ha
    obtain ⟨a1, a2, a3, a4, a5, -⟩ := ha
    have b1 := beq_eq_false_iff_ne.mpr a1
    have b2 := beq_eq_false_iff_ne.mpr a2
    have b3 := beq_eq_false_iff_ne.mpr a3
    have b4 := beq_eq_false_iff_ne.mpr a4
    have b5 := beq_eq_false_iff_ne.mpr a5
    simp only [httpserver.handleSystemStateAction, hfind]
    simp [b1, b2, b3, b4, b5]

/-- C8 (counterexample): `cancel` on a `discovered` machine is rejected
with "Can only cancel from queued state" — a message that names the
required source state, not the machine's current state `discovered`. -/
theorem state_action_cancel_message_lacks_state :
    httpserver.handleSystemStateAction [sysDisc] [] 2 (bytes "cancel") 0 =
        ([sysDisc], [], .err 400 (bytes "Can only cancel from queued state")) ∧
      subStr sysDisc.state (bytes "Can only cancel from queued state") = false := by
  exact ⟨by decide, by decide⟩

/-- Witness for `state_action_guards` at concrete machines. -/
theorem state_action_guards_witness :
    httpserver.handleSystemStateAction [sysDisc] [] 2 (bytes "queue") 3 =
        (db.updateSystemState [sysDisc] 2 (bytes "queued") 3,
         [httpserver.mkSystemEvent sysDisc (bytes "queued")], .rowHTML 2) ∧
      httpserver.handleSystemStateAction [sysProv] [] 1 (bytes "queue") 3 =
        ([sysProv], [],
         .err 400 (bytes "Cannot queue from state " ++ sysProv.state)) := by
  constructor
  · exact (state_action_guards [sysDisc] [] 2 3 sysDisc rfl).1 (Or.inl rfl)
      (by decide) (by decide)
  · exact ((state_action_guards [sysProv] [] 1 3 sysProv rfl).2.1 (by decide) (by decide)
      (by decide)).1

/-- C2: evaluation at the claim's inputs.  The PXE half of the claim holds
— the BIOS PXE reply carries `siaddr = server IP` — but the eligible
HTTP-Boot reply ALSO carries `siaddr = server IP`: the `WithServerIP`
modifier in the common option list writes the BOOTP `siaddr` of every
reply, so it is not left at `0.0.0.0` as the claim (and the code's own
comment "only needed for PXE, not HTTP boot") intends. -/
theorem proxydhcp_httpboot_siaddr_is_server :
    (proxydhcp.handler [192, 0, 2, 1] (bytes "http://duh") (bytes ":8080")
        proxydhcp.httpBootDiscover).map proxydhcp.Reply.siaddr = some [192, 0, 2, 1] ∧
      (proxydhcp.handler [192, 0, 2, 1] (bytes "http://duh") (bytes ":8080")
        proxydhcp.pxeBiosDiscover).map proxydhcp.Reply.siaddr = some [192, 0, 2, 1] ∧
      ([192, 0, 2, 1] : List Nat) ≠ [0, 0, 0, 0] := by
  exact ⟨by decide, by decide, by decide⟩

/-- C9 (counterexample): `0.0.0.0` belongs to none of the claim's private
classes, yet the guard blocks a resolution containing only it
(`IsUnspecified` is also blocked by the code). -/
theorem ssrf_guard_blocks_unspecified :
    (∀ ip ∈ ([[0, 0, 0, 0]] : List safenet.IP), safenet.claimPrivateIP ip = false) ∧
      safenet.safeDialCheck [[0, 0, 0, 0]] =
        .error (bytes "blocked connection to private IP") := by
  exact ⟨by decide, by rfl⟩

/-- C9 (amended): a resolved set containing any address of the claim's
private classes is blocked before dialing; a set in which no address is
`isPrivateIP` is not blocked; and the code's `isPrivateIP` is exactly the
claim's classes plus the unspecified addresses (`0.0.0.0`, `::`) and
link-local multicast. -/
theorem ssrf_guard_blocks_exactly_private :
    (∀ (ips : List safenet.IP) (ip : safenet.IP), ip ∈ ips →
      safenet.claimPrivateIP ip = true →
      safenet.safeDialCheck ips = .error (bytes "blocked connection to private IP")) ∧
    (∀ ips : List safenet.IP, (∀ ip ∈ ips, safenet.isPrivateIP ip = false) →
      safenet.safeDialCheck ips = .ok ()) ∧
    (∀ ip : safenet.IP, safenet.isPrivateIP ip =
      (safenet.claimPrivateIP ip || safenet.isUnspecified ip ||
        safenet.isLinkLocalMulticast ip)) := by
  refine ⟨?_, ?_, ?_⟩
  · intro ips ip hmem hpriv
    have hp : safenet.isPrivateIP ip = true := by
      simp only [safenet.claimPrivateIP, Bool.or_eq_true] at hpriv
      simp only [safenet.isPrivateIP, Bool.or_eq_true]
      tauto
    rw [safenet.safeDialCheck]
    cases hfind : ips.find? safenet.isPrivateIP with
    | some _ => rfl
    | none => exact absurd hp (by simpa using List.find?_eq_none.mp hfind ip hmem)
  · intro ips h
    rw [safenet.safeDialCheck, List.find?_eq_none.mpr (fun x hx => by simp [h x hx])]
  · intro ip
    rw [Bool.eq_iff_iff]
    simp only [safenet.isPrivateIP, safenet.claimPrivateIP, Bool.or_eq_true]
    tauto

/-- Witness for `ssrf_guard_blocks_exactly_private` at concrete resolved
sets. -/
theorem ssrf_guard_witness :
    safenet.safeDialCheck [[8, 8, 8, 8], [10, 0, 0, 1]] =
        .error (bytes "blocked connection to private IP") ∧
      safenet.safeDialCheck [[8, 8, 8, 8], [1, 1, 1, 1]] = .ok () :=
  ⟨ssrf_guard_blocks_exactly_private.1 [[8, 8, 8, 8], [10, 0, 0, 1]] [10, 0, 0, 1]
      (by decide) (by decide),
   ssrf_guard_blocks_exactly_private.2.1 [[8, 8, 8, 8], [1, 1, 1, 1]] (by decide)⟩

/-- Witness for `entry_hash_deterministic_and_field_sensitive` at concrete
inputs. -/
theorem entry_hash_deterministic_witness :
    catalog.Entry.Hash entryA =
        hexEncode (sha256 (catalog.hashInputBase entryA)) ∧
      catalog.hashInput { entryA with arch := bytes "arm64" } ≠ catalog.hashInput entryA :=
  ⟨entry_hash_deterministic_and_field_sensitive.2.1 entryA (by decide) (by decide)
      (by decide) (by decide),
    ((entry_hash_deterministic_and_field_sensitive.2.2.1 entryA (bytes "arm64")).2.2.2.1)
      (by decide)⟩

end Duh
